import Mathlib

set_option linter.unusedVariables false
set_option linter.unnecessarySimpa false

namespace Pexels

/-- Go strings are byte sequences: a Go string is modelled as the list of its byte
values, each below 256. -/
abbrev GoStr := List Nat

/-- Byte list of an ASCII string literal, used to transcribe the string literals of the
source files. -/
def ascii (s : String) : GoStr := s.data.map Char.toNat

/-- Wellformedness of a modelled Go string: every entry is a byte value. -/
def validBytes (s : GoStr) : Prop := ∀ b ∈ s, b < 256

instance (s : GoStr) : Decidable (validBytes s) := List.decidableBAll _ s

/-- Decimal digit bytes of a natural number, most significant digit first, with an
explicit fuel argument so that the recursion is structural and kernel-reducible. -/
def natToBytesGo : Nat → Nat → GoStr
  | 0, _ => []
  | fuel + 1, n => if n < 10 then [48 + n] else natToBytesGo fuel (n / 10) ++ [48 + n % 10]

/-- Decimal rendering of a natural number, as printed by fmt.Sprint. -/
def natToBytes (n : Nat) : GoStr := natToBytesGo (n + 1) n

/-- Decimal rendering of a Go int, as printed by fmt.Sprint and by the percent-d verb:
a minus sign byte 45 followed by the digit bytes for negative values. -/
def intToBytes : Int → GoStr
  | Int.ofNat n => natToBytes n
  | Int.negSucc n => 45 :: natToBytes (n + 1)

/-- The bytes that net/url shouldEscape leaves unescaped in a query component: ASCII
digits and letters and the four marks 45, 46, 95, 126. -/
def isUnreservedByte (b : Nat) : Bool :=
  (48 ≤ b && b ≤ 57) || (65 ≤ b && b ≤ 90) || (97 ≤ b && b ≤ 122) ||
    b == 45 || b == 46 || b == 95 || b == 126

/-- Upper-case hexadecimal digit byte, as in the upperhex table of net/url. -/
def hexUpper (n : Nat) : Nat := if n < 10 then 48 + n else 55 + n

/-- Go net/url QueryEscape acting on one byte: an unreserved byte passes through, the
space byte 32 becomes 43, and every other byte becomes a percent triple. -/
def escapeByte (b : Nat) : GoStr :=
  if isUnreservedByte b then [b]
  else if b = 32 then [43]
  else [37, hexUpper (b / 16), hexUpper (b % 16)]

/-- Go net/url QueryEscape on a byte string. -/
def queryEscape (s : GoStr) : GoStr := (s.map escapeByte).flatten

/-- Hexadecimal digit bytes accepted by the ishex check of net/url. -/
def isHexByte (b : Nat) : Bool :=
  (48 ≤ b && b ≤ 57) || (65 ≤ b && b ≤ 70) || (97 ≤ b && b ≤ 102)

/-- Numeric value of a hexadecimal digit byte, as in the unhex function of net/url. -/
def unhexByte (b : Nat) : Nat := if b ≤ 57 then b - 48 else if b ≤ 70 then b - 55 else b - 87

/-- Go net/url QueryUnescape: a percent byte must be followed by two hexadecimal digit
bytes and decodes to their value, the byte 43 decodes to the space byte 32, every other
byte passes through; an invalid percent escape fails the whole conversion. -/
def queryUnescape : GoStr → Option GoStr
  | [] => some []
  | b :: rest =>
    if b = 37 then
      match rest with
      | h :: l :: rest2 =>
        if isHexByte h && isHexByte l then
          (queryUnescape rest2).map (fun r => (unhexByte h * 16 + unhexByte l) :: r)
        else none
      | _ => none
    else if b = 43 then (queryUnescape rest).map (fun r => 32 :: r)
    else (queryUnescape rest).map (fun r => b :: r)

/-- An url.Values object. url.Values is a Go map from keys to value slices; the bindings
only ever store a single value per key through Set, so it is modelled as an association
list with unique keys. Entry order is immaterial because Encode sorts the keys. -/
abbrev Values := List (GoStr × GoStr)

/-- Go url.Values.Set: the entry for the key is replaced by the single given value. -/
def valuesSet (v : Values) (key val : GoStr) : Values :=
  v.filter (fun p => p.1 != key) ++ [(key, val)]

/-- Byte-lexicographic ordering of Go strings, as used by sort.Strings on the keys
inside url.Values.Encode. -/
def bytesLe : GoStr → GoStr → Bool
  | [], _ => true
  | _ :: _, [] => false
  | a :: as, b :: bs => if a < b then true else if b < a then false else bytesLe as bs

/-- Insertion into a key-sorted association list. -/
def insertByKey (x : GoStr × GoStr) : Values → Values
  | [] => [x]
  | y :: ys => if bytesLe x.1 y.1 then x :: y :: ys else y :: insertByKey x ys

/-- Sorting of an association list by key: url.Values.Encode iterates the keys in sorted
order. The stored keys are pairwise distinct, so any sort produces this list. -/
def sortByKey : Values → Values
  | [] => []
  | x :: xs => insertByKey x (sortByKey xs)

/-- Go url.Values.Encode: keys sorted, each entry rendered as the escaped key, the byte
61, and the escaped value, with entries joined by the byte 38. -/
def encodeValues (v : Values) : GoStr :=
  List.intercalate [38] ((sortByKey v).map (fun p => queryEscape p.1 ++ 61 :: queryEscape p.2))

/-- A reflected struct field value. The parameter records of this client only contain
fields of the reflect kinds String and Int. -/
inductive FieldVal where
  | str (s : GoStr)
  | int (n : Int)
  deriving DecidableEq

/-- fmt.Sprint of a reflected field value, as bound to fieldValue in the source. -/
def fieldString : FieldVal → GoStr
  | .str s => s
  | .int n => intToBytes n

/-- The value filter of structToURLValues, written exactly as in the source: keep the
field when its kind is Int and its printed value is not the string 0, or its kind is
String and its printed value is not the empty string. -/
def fieldKept (f : FieldVal) : Bool :=
  match f with
  | .int _ => fieldString f != ascii "0"
  | .str _ => fieldString f != ascii ""

/-- structToURLValues of the source: iterate the struct fields in declaration order and
Set every field that has a non-empty url tag and passes the value filter. A parameter
record is presented as its list of url-tag and value pairs in declaration order, which
is exactly what the reflection loop of the source observes. -/
def structToURLValues (fields : List (GoStr × FieldVal)) : Values :=
  fields.foldl
    (fun val p => if p.1 ≠ [] ∧ fieldKept p.2 then valuesSet val p.1 (fieldString p.2) else val) []

/-- strings.Cut at the first occurrence of a separator byte: the part before it and the
part after it, the latter empty when the byte does not occur. -/
def cutByte (sep : Nat) : GoStr → GoStr × GoStr
  | [] => ([], [])
  | b :: bs => if b = sep then ([], bs) else ((cutByte sep bs).1.cons b, (cutByte sep bs).2)

/-- One key-value segment of a query string, as processed inside net/url ParseQuery: cut
at the first byte 61, unescape the key and the value, and drop the pair when either
unescape fails. -/
def parsePair (seg : GoStr) : Option (GoStr × GoStr) :=
  match queryUnescape (cutByte 61 seg).1, queryUnescape (cutByte 61 seg).2 with
  | some k, some v => some (k, v)
  | _, _ => none

/-- Go net/url ParseQuery: the query is processed as its byte-38 separated segments; a
segment containing the byte 59 is rejected with an error, an empty segment is skipped,
and every remaining segment contributes its pair in order. The iterated strings.Cut
loop of net/url visits exactly the splitOn segments, the final empty segment produced
by a trailing separator being removed by the empty-segment check of the loop. -/
def parseQuery (q : GoStr) : List (GoStr × GoStr) :=
  ((q.splitOn 38).filter (fun seg => !seg.contains 59 && !seg.isEmpty)).filterMap parsePair

/-- All values recorded for one key, in order: url.Values is a multimap and indexing it
returns the value slice of the key. -/
def getAll (m : List (GoStr × GoStr)) (k : GoStr) : List GoStr :=
  (m.filter (fun p => p.1 == k)).map (fun p => p.2)

/-- A Go error value, carrying the text produced by fmt.Errorf or by the failing
library call. -/
structure GoError where
  message : GoStr
  deriving DecidableEq

/-- The Pexels client record. The HTTPClient field of the source only fixes a two
minute timeout; the network exchange it performs is abstracted as the Net argument of
the bindings, so the field does not appear here. -/
structure Client where
  BaseURL : GoStr
  ApiKey : GoStr
  Version : GoStr
  deriving DecidableEq

/-- Package-level default base URL of the source. -/
def BaseURL : GoStr := ascii "https://api.pexels.com/"

/-- Package-level default API version segment of the source. -/
def Version : GoStr := ascii "v1"

/-- NewClient of the source: the defaults plus the supplied key. -/
def NewClient (apiKey : GoStr) : Client :=
  { BaseURL := BaseURL, ApiKey := apiKey, Version := Version }

/-- An outbound HTTP request as assembled by the bindings: method, target URL, and
headers. The http.NewRequest URL-parse failure path of the source is not modelled; no
claim concerns it. The context attached by WithContext lives inside the network
function. -/
structure Request where
  method : GoStr
  url : GoStr
  headers : List (GoStr × GoStr)
  deriving DecidableEq

/-- http.Header.Set: the entry for the key replaces any previous one. The header names
written by this client are already in canonical MIME form, so the canonicalisation
performed by Set is the identity on them. -/
def Request.setHeader (r : Request) (k v : GoStr) : Request :=
  { r with headers := r.headers.filter (fun p => p.1 != k) ++ [(k, v)] }

/-- Header lookup, as http.Header.Get would perform it on the canonical names used
here. -/
def headerGet (h : List (GoStr × GoStr)) (k : GoStr) : Option GoStr :=
  (h.find? (fun p => p.1 == k)).map (fun p => p.2)

/-- An HTTP response at the point sendRequest observes it: the status code and the
fully read body. -/
structure Response where
  statusCode : Int
  body : GoStr
  deriving DecidableEq

/-- The behaviour of HTTPClient.Do: a transport error, or a response. -/
abbrev Net := Request → Except GoError Response

/-- The message built by fmt.Errorf for a non-success status in sendRequest: the format
string Unknown API error with the percent-d status and the percent-s body. -/
def apiErrorMessage (status : Int) (body : GoStr) : GoStr :=
  ascii "Unknown API error: " ++ intToBytes status ++ ascii " " ++ body

/-- sendRequest of the source: a transport failure propagates unmodified; a status
below 200 (http.StatusOK) or at least 400 (http.StatusBadRequest) yields the formatted
API error built from the status and the fully read body; otherwise the body is decoded
into the destination shape. The JSON decoding into the caller-supplied destination is
abstracted as the dec argument, a decode failure being the error of dec. -/
def sendRequest (dec : GoStr → Except GoError α) (r : Except GoError Response) :
    Except GoError α :=
  match r with
  | .error e => .error e
  | .ok res =>
    if res.statusCode < 200 ∨ 400 ≤ res.statusCode then
      .error ⟨apiErrorMessage res.statusCode res.body⟩
    else dec res.body

/-- Go any values decoded from JSON fields of unspecified shape (full_res, tags of the
source); kept as the uninterpreted raw JSON text. -/
structure GoAny where
  raw : GoStr
  deriving DecidableEq

/-- User record of the source. -/
structure User where
  ID : Int
  Name : GoStr
  URL : GoStr
  deriving DecidableEq

/-- PhotoSrc record of the source: the eight size URLs of a photo. -/
structure PhotoSrc where
  Original : GoStr
  Large2X : GoStr
  Large : GoStr
  Medium : GoStr
  Small : GoStr
  Portrait : GoStr
  Landscape : GoStr
  Tiny : GoStr
  deriving DecidableEq

/-- Photo record of the source. -/
structure Photo where
  ID : Int
  Width : Int
  Height : Int
  URL : GoStr
  Photographer : GoStr
  PhotographerURL : GoStr
  PhotographerID : Int
  AvgColor : GoStr
  Src : PhotoSrc
  Liked : Bool
  Alt : GoStr
  deriving DecidableEq

/-- GetPhotoResponse record of the source. -/
structure GetPhotoResponse where
  TotalResults : Int
  Page : Int
  PerPage : Int
  Photos : List Photo
  NextPage : GoStr
  PrevPage : GoStr
  deriving DecidableEq

/-- VideoFile record of the source. The float64 Fps field is modelled as its raw JSON
text; no code in the repository computes with it. -/
structure VideoFile where
  ID : Int
  Quality : GoStr
  FileType : GoStr
  Width : Int
  Height : Int
  Fps : GoAny
  Link : GoStr
  deriving DecidableEq

/-- VideoPicture record of the source. -/
structure VideoPicture where
  ID : Int
  Picture : GoStr
  Nr : Int
  deriving DecidableEq

/-- Video record of the source. -/
structure Video where
  ID : Int
  Width : Int
  Height : Int
  URL : GoStr
  Image : GoStr
  FullRes : GoAny
  Tags : List GoAny
  Duration : Int
  User : User
  VideoFiles : List VideoFile
  VideoPictures : List VideoPicture
  deriving DecidableEq

/-- GetVideosResponse record of the source. -/
structure GetVideosResponse where
  Page : Int
  PerPage : Int
  TotalResults : Int
  URL : GoStr
  Videos : List Video
  deriving DecidableEq

/-- Collection record of the source. -/
structure Collection where
  ID : GoStr
  Title : GoStr
  Description : GoStr
  Private : Bool
  MediaCount : Int
  PhotosCount : Int
  VideosCount : Int
  deriving DecidableEq

/-- GetCollectionsResponse record of the source. -/
structure GetCollectionsResponse where
  Collections : List Collection
  Page : Int
  PerPage : Int
  TotalResults : Int
  NextPage : GoStr
  PrevPage : GoStr
  deriving DecidableEq

/-- CollectionMedia record of the source. -/
structure CollectionMedia where
  «Type» : GoStr
  ID : Int
  Width : Int
  Height : Int
  URL : GoStr
  Photographer : GoStr
  PhotographerURL : GoStr
  PhotographerID : Int
  AvgColor : GoStr
  Src : PhotoSrc
  Liked : Bool
  Duration : Int
  FullRes : GoAny
  Tags : List GoAny
  Image : GoStr
  User : User
  VideoFiles : VideoFile
  VideoPictures : List VideoPicture
  deriving DecidableEq

/-- GetPhotosParams record of the source. -/
structure GetPhotosParams where
  Query : GoStr
  Orientation : GoStr
  Size : GoStr
  Color : GoStr
  Locale : GoStr
  Page : Int
  PerPage : Int
  deriving DecidableEq

/-- The url-tagged fields of GetPhotosParams in declaration order, exactly as the
reflection loop of structToURLValues observes them. -/
def GetPhotosParams.toFields (p : GetPhotosParams) : List (GoStr × FieldVal) :=
  [(ascii "query", .str p.Query), (ascii "orientation", .str p.Orientation),
   (ascii "size", .str p.Size), (ascii "color", .str p.Color),
   (ascii "locale", .str p.Locale), (ascii "page", .int p.Page),
   (ascii "per_page", .int p.PerPage)]

/-- The two defaulting statements at the head of GetPhotos, written through the params
pointer: page 1 and per_page 5 when the incoming field is zero. -/
def GetPhotosParams.applyDefaults (p : GetPhotosParams) : GetPhotosParams :=
  let p1 := if p.Page = 0 then { p with Page := 1 } else p
  if p1.PerPage = 0 then { p1 with PerPage := 5 } else p1

/-- GetCuratedPhotoParams record of the source. -/
structure GetCuratedPhotoParams where
  Page : Int
  PerPage : Int
  deriving DecidableEq

/-- The url-tagged fields of GetCuratedPhotoParams in declaration order. -/
def GetCuratedPhotoParams.toFields (p : GetCuratedPhotoParams) : List (GoStr × FieldVal) :=
  [(ascii "page", .int p.Page), (ascii "per_page", .int p.PerPage)]

/-- The defaulting statements at the head of GetCurated: page 1 and per_page 5 when the
incoming field is zero. -/
def GetCuratedPhotoParams.applyDefaults (p : GetCuratedPhotoParams) : GetCuratedPhotoParams :=
  let p1 := if p.Page = 0 then { p with Page := 1 } else p
  if p1.PerPage = 0 then { p1 with PerPage := 5 } else p1

/-- GetFeaturedCollectionParams record of the source. -/
structure GetFeaturedCollectionParams where
  Page : Int
  PerPage : Int
  deriving DecidableEq

/-- The url-tagged fields of GetFeaturedCollectionParams in declaration order. -/
def GetFeaturedCollectionParams.toFields (p : GetFeaturedCollectionParams) :
    List (GoStr × FieldVal) :=
  [(ascii "page", .int p.Page), (ascii "per_page", .int p.PerPage)]

/-- The defaulting statements at the head of getCollections: page 1 and per_page 5 when
the incoming field is zero. -/
def GetFeaturedCollectionParams.applyDefaults (p : GetFeaturedCollectionParams) :
    GetFeaturedCollectionParams :=
  let p1 := if p.Page = 0 then { p with Page := 1 } else p
  if p1.PerPage = 0 then { p1 with PerPage := 5 } else p1

/-- GetCollectionMediaParams record of the source. -/
structure GetCollectionMediaParams where
  «Type» : GoStr
  «Sort» : GoStr
  Page : Int
  PerPage : Int
  deriving DecidableEq

/-- The url-tagged fields of GetCollectionMediaParams in declaration order. -/
def GetCollectionMediaParams.toFields (p : GetCollectionMediaParams) :
    List (GoStr × FieldVal) :=
  [(ascii "type", .str p.«Type»), (ascii "sort", .str p.«Sort»),
   (ascii "page", .int p.Page), (ascii "per_page", .int p.PerPage)]

/-- The defaulting statements at the head of GetCollection: page 1 and per_page 5 when
the incoming field is zero. -/
def GetCollectionMediaParams.applyDefaults (p : GetCollectionMediaParams) :
    GetCollectionMediaParams :=
  let p1 := if p.Page = 0 then { p with Page := 1 } else p
  if p1.PerPage = 0 then { p1 with PerPage := 5 } else p1

/-- GetVideosParams record of the source. -/
structure GetVideosParams where
  Query : GoStr
  Orientation : GoStr
  Size : GoStr
  Locale : GoStr
  Page : Int
  PerPage : Int
  deriving DecidableEq

/-- The url-tagged fields of GetVideosParams in declaration order. -/
def GetVideosParams.toFields (p : GetVideosParams) : List (GoStr × FieldVal) :=
  [(ascii "query", .str p.Query), (ascii "orientation", .str p.Orientation),
   (ascii "size", .str p.Size), (ascii "locale", .str p.Locale),
   (ascii "page", .int p.Page), (ascii "per_page", .int p.PerPage)]

/-- The defaulting statements at the head of GetVideos: page 1 and per_page 5 when the
incoming field is zero. -/
def GetVideosParams.applyDefaults (p : GetVideosParams) : GetVideosParams :=
  let p1 := if p.Page = 0 then { p with Page := 1 } else p
  if p1.PerPage = 0 then { p1 with PerPage := 5 } else p1

/-- GetPopularVideosParams record of the source. -/
structure GetPopularVideosParams where
  MinWidth : Int
  MinHeight : Int
  MinDuration : Int
  MaxDuration : Int
  Page : Int
  PerPage : Int
  deriving DecidableEq

/-- The url-tagged fields of GetPopularVideosParams in declaration order. -/
def GetPopularVideosParams.toFields (p : GetPopularVideosParams) : List (GoStr × FieldVal) :=
  [(ascii "min_width", .int p.MinWidth), (ascii "min_height", .int p.MinHeight),
   (ascii "min_duration", .int p.MinDuration), (ascii "max_duration", .int p.MaxDuration),
   (ascii "page", .int p.Page), (ascii "per_page", .int p.PerPage)]

/-- The defaulting statements at the head of GetPopularVideos: page 1 and, for this one
endpoint, per_page 2 when the incoming field is zero. -/
def GetPopularVideosParams.applyDefaults (p : GetPopularVideosParams) : GetPopularVideosParams :=
  let p1 := if p.Page = 0 then { p with Page := 1 } else p
  if p1.PerPage = 0 then { p1 with PerPage := 2 } else p1

/-- The observable outcome of one binding call: the final contents of the caller-owned
params record (the bindings write the pagination defaults through the params pointer),
the requests constructed and handed to HTTPClient.Do in order, and the returned value
or error. An error result models the nil response pointer returned together with the
error. -/
structure CallResult (ρ : Type) (α : Type) where
  finalParams : ρ
  requests : List Request
  result : Except GoError α

/-- GetPhotos of the source: default the pagination through the params pointer, reject
an empty query before any request exists, otherwise format the search URL, set the
Accept and Authorization headers (this binding sets no Content-Type header) and run the
pipeline. -/
def GetPhotos (c : Client) (dec : GoStr → Except GoError GetPhotoResponse)
    (params : GetPhotosParams) (net : Net) : CallResult GetPhotosParams GetPhotoResponse :=
  let params := params.applyDefaults
  if params.Query = [] then
    ⟨params, [], .error ⟨ascii "Query field cannot be empty."⟩⟩
  else
    let url := c.BaseURL ++ c.Version ++ ascii "/search?" ++
      encodeValues (structToURLValues params.toFields)
    let req := ((Request.mk (ascii "GET") url []).setHeader
      (ascii "Accept") (ascii "application/json")).setHeader (ascii "Authorization") c.ApiKey
    ⟨params, [req], sendRequest dec (net req)⟩

/-- GetCurated of the source: default the pagination through the params pointer, format
the curated URL, set the Accept, Content-Type and Authorization headers and run the
pipeline. -/
def GetCurated (c : Client) (dec : GoStr → Except GoError GetPhotoResponse)
    (params : GetCuratedPhotoParams) (net : Net) :
    CallResult GetCuratedPhotoParams GetPhotoResponse :=
  let params := params.applyDefaults
  let url := c.BaseURL ++ c.Version ++ ascii "/curated?" ++
    encodeValues (structToURLValues params.toFields)
  let req := (((Request.mk (ascii "GET") url []).setHeader
    (ascii "Accept") (ascii "application/json")).setHeader
    (ascii "Content-Type") (ascii "application/json")).setHeader (ascii "Authorization") c.ApiKey
  ⟨params, [req], sendRequest dec (net req)⟩

/-- GetPhoto of the source: interpolate the id into the photo path, set the Accept,
Content-Type and Authorization headers and run the pipeline. No params record exists
for this binding. -/
def GetPhoto (c : Client) (dec : GoStr → Except GoError Photo) (id : GoStr) (net : Net) :
    CallResult Unit Photo :=
  let url := c.BaseURL ++ c.Version ++ ascii "/photos/" ++ id
  let req := (((Request.mk (ascii "GET") url []).setHeader
    (ascii "Accept") (ascii "application/json")).setHeader
    (ascii "Content-Type") (ascii "application/json")).setHeader (ascii "Authorization") c.ApiKey
  ⟨(), [req], sendRequest dec (net req)⟩

/-- getCollections of the source: default the pagination through the params pointer,
format the featured collections URL, replace it by the own collections URL when the own
flag is set, set the Accept, Content-Type and Authorization headers and run the
pipeline. -/
def getCollections (c : Client) (dec : GoStr → Except GoError GetCollectionsResponse)
    (params : GetFeaturedCollectionParams) (own : Bool) (net : Net) :
    CallResult GetFeaturedCollectionParams GetCollectionsResponse :=
  let params := params.applyDefaults
  let url := c.BaseURL ++ c.Version ++ ascii "/collections/featured?" ++
    encodeValues (structToURLValues params.toFields)
  let url := if own then
      c.BaseURL ++ c.Version ++ ascii "/collections?" ++
        encodeValues (structToURLValues params.toFields)
    else url
  let req := (((Request.mk (ascii "GET") url []).setHeader
    (ascii "Accept") (ascii "application/json")).setHeader
    (ascii "Content-Type") (ascii "application/json")).setHeader (ascii "Authorization") c.ApiKey
  ⟨params, [req], sendRequest dec (net req)⟩

/-- GetFeaturedCollections of the source: getCollections with the own flag false. -/
def GetFeaturedCollections (c : Client) (dec : GoStr → Except GoError GetCollectionsResponse)
    (params : GetFeaturedCollectionParams) (net : Net) :
    CallResult GetFeaturedCollectionParams GetCollectionsResponse :=
  getCollections c dec params false net

/-- GetUserCollections of the source: getCollections with the own flag true. -/
def GetUserCollections (c : Client) (dec : GoStr → Except GoError GetCollectionsResponse)
    (params : GetFeaturedCollectionParams) (net : Net) :
    CallResult GetFeaturedCollectionParams GetCollectionsResponse :=
  getCollections c dec params true net

/-- GetCollection of the source: default the pagination through the params pointer,
interpolate the id into the collections path together with the encoded params, set the
Accept, Content-Type and Authorization headers and run the pipeline. -/
def GetCollection (c : Client) (dec : GoStr → Except GoError CollectionMedia)
    (params : GetCollectionMediaParams) (id : GoStr) (net : Net) :
    CallResult GetCollectionMediaParams CollectionMedia :=
  let params := params.applyDefaults
  let url := c.BaseURL ++ c.Version ++ ascii "/collections/" ++ id ++ ascii "?" ++
    encodeValues (structToURLValues params.toFields)
  let req := (((Request.mk (ascii "GET") url []).setHeader
    (ascii "Accept") (ascii "application/json")).setHeader
    (ascii "Content-Type") (ascii "application/json")).setHeader (ascii "Authorization") c.ApiKey
  ⟨params, [req], sendRequest dec (net req)⟩

/-- GetVideo of the source: interpolate the id into the video path, which carries no
version segment, set the Accept, Content-Type and Authorization headers and run the
pipeline. -/
def GetVideo (c : Client) (dec : GoStr → Except GoError Video) (id : GoStr) (net : Net) :
    CallResult Unit Video :=
  let url := c.BaseURL ++ ascii "/videos/videos/" ++ id
  let req := (((Request.mk (ascii "GET") url []).setHeader
    (ascii "Accept") (ascii "application/json")).setHeader
    (ascii "Content-Type") (ascii "application/json")).setHeader (ascii "Authorization") c.ApiKey
  ⟨(), [req], sendRequest dec (net req)⟩

/-- GetPopularVideos of the source: default the pagination through the params pointer
(per_page defaults to 2 here), format the popular videos URL, which carries no version
segment and no slash after the base URL, set the Accept, Content-Type and Authorization
headers and run the pipeline. -/
def GetPopularVideos (c : Client) (dec : GoStr → Except GoError GetVideosResponse)
    (params : GetPopularVideosParams) (net : Net) :
    CallResult GetPopularVideosParams GetVideosResponse :=
  let params := params.applyDefaults
  let url := c.BaseURL ++ ascii "videos/popular?" ++
    encodeValues (structToURLValues params.toFields)
  let req := (((Request.mk (ascii "GET") url []).setHeader
    (ascii "Accept") (ascii "application/json")).setHeader
    (ascii "Content-Type") (ascii "application/json")).setHeader (ascii "Authorization") c.ApiKey
  ⟨params, [req], sendRequest dec (net req)⟩

/-- GetVideos of the source: default the pagination through the params pointer, reject
an empty query before any request exists, otherwise format the video search URL, which
carries no version segment, set the Accept and Authorization headers (this binding sets
no Content-Type header) and run the pipeline. -/
def GetVideos (c : Client) (dec : GoStr → Except GoError GetVideosResponse)
    (params : GetVideosParams) (net : Net) : CallResult GetVideosParams GetVideosResponse :=
  let params := params.applyDefaults
  if params.Query = [] then
    ⟨params, [], .error ⟨ascii "Query field cannot be empty."⟩⟩
  else
    let url := c.BaseURL ++ ascii "/videos/search?" ++
      encodeValues (structToURLValues params.toFields)
    let req := ((Request.mk (ascii "GET") url []).setHeader
      (ascii "Accept") (ascii "application/json")).setHeader (ascii "Authorization") c.ApiKey
    ⟨params, [req], sendRequest dec (net req)⟩

/-- A sample decoder that always fails, exercising the bindings on paths where the
decoder is never reached. -/
def failDec (α : Type) : GoStr → Except GoError α := fun _ => .error ⟨ascii "decode failure"⟩

/-- A sample transport that always fails, exercising the bindings on paths where no
request is sent. -/
def failNet : Net := fun _ => .error ⟨ascii "transport failure"⟩

/-- A sample transport returning one fixed response to every request. -/
def constNet (status : Int) (body : GoStr) : Net := fun _ => .ok ⟨status, body⟩

/-! Helper lemmas about the decimal formatter. -/

theorem natToBytesGo_congr : ∀ f₁ f₂ n, n < f₁ → n < f₂ → natToBytesGo f₁ n = natToBytesGo f₂ n := by
  intro f₁
  induction f₁ with
  | zero => intro f₂ n h₁ h₂; omega
  | succ g ih =>
    intro f₂ n h₁ h₂
    cases f₂ with
    | zero => omega
    | succ k =>
      simp only [natToBytesGo]
      by_cases hn : n < 10
      · simp [hn]
      · simp only [if_neg hn]
        rw [ih k (n / 10) (by omega) (by omega)]

theorem natToBytesGo_succ (fuel n : Nat) :
    natToBytesGo (fuel + 1) n =
      if n < 10 then [48 + n] else natToBytesGo fuel (n / 10) ++ [48 + n % 10] := by
  simp only [natToBytesGo]

theorem natToBytes_eq (n : Nat) :
    natToBytes n = if n < 10 then [48 + n] else natToBytes (n / 10) ++ [48 + n % 10] := by
  by_cases hn : n < 10
  · rw [if_pos hn]
    show natToBytesGo (n + 1) n = _
    rw [natToBytesGo_succ, if_pos hn]
  · rw [if_neg hn]
    show natToBytesGo (n + 1) n = natToBytesGo (n / 10 + 1) (n / 10) ++ [48 + n % 10]
    rw [natToBytesGo_succ, if_neg hn,
      natToBytesGo_congr n (n / 10 + 1) (n / 10) (by omega) (by omega)]

theorem natToBytes_digits (n : Nat) : ∀ c ∈ natToBytes n, 48 ≤ c ∧ c ≤ 57 := by
  induction n using Nat.strong_induction_on with
  | _ n ih =>
    rw [natToBytes_eq]
    by_cases hn : n < 10
    · simp only [if_pos hn, List.mem_singleton]
      intro c hc
      omega
    · simp only [if_neg hn, List.mem_append, List.mem_singleton]
      intro c hc
      rcases hc with h | h
      · exact ih (n / 10) (by omega) c h
      · omega

theorem natToBytes_ne_nil (n : Nat) : natToBytes n ≠ [] := by
  rw [natToBytes_eq]
  split <;> simp

theorem natToBytes_injective : ∀ a b : Nat, natToBytes a = natToBytes b → a = b := by
  intro a
  induction a using Nat.strong_induction_on with
  | _ a ih =>
    intro b heq
    rw [natToBytes_eq a, natToBytes_eq b] at heq
    by_cases ha : a < 10 <;> by_cases hb : b < 10
    · simp only [if_pos ha, if_pos hb, List.cons.injEq] at heq
      omega
    · simp only [if_pos ha, if_neg hb] at heq
      have hlen := congrArg List.length heq
      simp only [List.length_singleton, List.length_append] at hlen
      have : natToBytes (b / 10) = [] := List.length_eq_zero.mp (by omega)
      exact absurd this (natToBytes_ne_nil _)
    · simp only [if_neg ha, if_pos hb] at heq
      have hlen := congrArg List.length heq
      simp only [List.length_singleton, List.length_append] at hlen
      have : natToBytes (a / 10) = [] := List.length_eq_zero.mp (by omega)
      exact absurd this (natToBytes_ne_nil _)
    · simp only [if_neg ha, if_neg hb] at heq
      have hrev := congrArg List.reverse heq
      simp only [List.reverse_append, List.reverse_singleton, List.singleton_append,
        List.cons.injEq] at hrev
      obtain ⟨hd, ht⟩ := hrev
      have hq : a / 10 = b / 10 :=
        ih (a / 10) (by omega) (b / 10) (List.reverse_injective ht)
      omega

theorem intToBytes_injective : ∀ a b : Int, intToBytes a = intToBytes b → a = b := by
  intro a b h
  cases a with
  | ofNat m =>
    cases b with
    | ofNat n => exact congrArg Int.ofNat (natToBytes_injective m n h)
    | negSucc n =>
      exfalso
      simp only [intToBytes] at h
      have h45 : (45 : Nat) ∈ natToBytes m := by
        rw [h]; exact List.mem_cons_self _ _
      have := natToBytes_digits m 45 h45
      omega
  | negSucc m =>
    cases b with
    | ofNat n =>
      exfalso
      simp only [intToBytes] at h
      have h45 : (45 : Nat) ∈ natToBytes n := by
        rw [← h]; exact List.mem_cons_self _ _
      have := natToBytes_digits n 45 h45
      omega
    | negSucc n =>
      simp only [intToBytes, List.cons.injEq] at h
      have hmn := natToBytes_injective (m + 1) (n + 1) h.2
      have : m = n := by omega
      rw [this]

theorem intToBytes_eq_ascii_zero (n : Int) : intToBytes n = ascii "0" ↔ n = 0 := by
  constructor
  · intro h
    have h0 : intToBytes n = intToBytes 0 := by
      rw [h]; decide
    exact intToBytes_injective n 0 h0
  · rintro rfl; decide

theorem fieldKept_int (n : Int) : fieldKept (.int n) = true ↔ n ≠ 0 := by
  simp only [fieldKept, fieldString, bne_iff_ne, ne_eq]
  rw [not_iff_not]
  exact intToBytes_eq_ascii_zero n

theorem fieldKept_str (s : GoStr) : fieldKept (.str s) = true ↔ s ≠ [] := by
  simp only [fieldKept, fieldString, bne_iff_ne, ne_eq]
  rfl

theorem natToBytes_valid (n : Nat) : validBytes (natToBytes n) := by
  intro c hc
  have := natToBytes_digits n c hc
  omega

theorem intToBytes_valid (n : Int) : validBytes (intToBytes n) := by
  cases n with
  | ofNat m => exact natToBytes_valid m
  | negSucc m =>
    intro c hc
    simp only [intToBytes, List.mem_cons] at hc
    rcases hc with rfl | hc
    · omega
    · exact natToBytes_valid _ c hc

/-! Helper lemmas about query escaping. -/

theorem queryEscape_nil : queryEscape [] = [] := rfl

theorem queryEscape_cons (b : Nat) (s : GoStr) :
    queryEscape (b :: s) = escapeByte b ++ queryEscape s := by
  simp [queryEscape]

theorem escapeByte_sep_free (b c : Nat) (h : c ∈ escapeByte b) : c ≠ 38 ∧ c ≠ 59 ∧ c ≠ 61 := by
  unfold escapeByte at h
  split at h
  · next hu =>
    simp only [List.mem_singleton] at h
    subst h
    simp only [isUnreservedByte, Bool.or_eq_true, Bool.and_eq_true, decide_eq_true_eq,
      beq_iff_eq] at hu
    omega
  · split at h
    · simp only [List.mem_singleton] at h
      omega
    · simp only [List.mem_cons, List.mem_singleton, List.not_mem_nil, or_false] at h
      rcases h with rfl | rfl | rfl
      · omega
      · unfold hexUpper; split <;> omega
      · unfold hexUpper; split <;> omega

theorem queryEscape_sep_free (s : GoStr) (c : Nat) (h : c ∈ queryEscape s) :
    c ≠ 38 ∧ c ≠ 59 ∧ c ≠ 61 := by
  unfold queryEscape at h
  rw [List.mem_flatten] at h
  obtain ⟨l, hl, hc⟩ := h
  rw [List.mem_map] at hl
  obtain ⟨b, _, rfl⟩ := hl
  exact escapeByte_sep_free b c hc

theorem isUnreservedByte_ne (b : Nat) (h : isUnreservedByte b = true) : b ≠ 37 ∧ b ≠ 43 := by
  simp only [isUnreservedByte, Bool.or_eq_true, Bool.and_eq_true, decide_eq_true_eq,
    beq_iff_eq] at h
  omega

theorem isHexByte_hexUpper (n : Nat) (h : n < 16) : isHexByte (hexUpper n) = true := by
  unfold isHexByte hexUpper
  split <;> (simp only [Bool.or_eq_true, Bool.and_eq_true, decide_eq_true_eq]; omega)

theorem unhexByte_hexUpper (n : Nat) (h : n < 16) : unhexByte (hexUpper n) = n := by
  unfold hexUpper
  by_cases hn : n < 10
  · rw [if_pos hn]
    unfold unhexByte
    rw [if_pos (by omega)]
    omega
  · rw [if_neg hn]
    unfold unhexByte
    rw [if_neg (by omega), if_pos (by omega)]
    omega

theorem queryUnescape_queryEscape (s : GoStr) (h : validBytes s) :
    queryUnescape (queryEscape s) = some s := by
  induction s with
  | nil => rfl
  | cons b t ih =>
    have hb : b < 256 := h b (List.mem_cons_self _ _)
    have ht : validBytes t := fun c hc => h c (List.mem_cons_of_mem _ hc)
    rw [queryEscape_cons]
    unfold escapeByte
    by_cases hu : isUnreservedByte b
    · rw [if_pos hu]
      obtain ⟨h37, h43⟩ := isUnreservedByte_ne b hu
      show queryUnescape (b :: queryEscape t) = _
      unfold queryUnescape
      rw [if_neg h37, if_neg h43, ih ht]
      rfl
    · rw [if_neg hu]
      by_cases h32 : b = 32
      · rw [if_pos h32]
        show queryUnescape (43 :: queryEscape t) = _
        unfold queryUnescape
        rw [if_neg (by omega)]
        rw [if_pos rfl, ih ht]
        rw [h32]
        rfl
      · rw [if_neg h32]
        show queryUnescape (37 :: hexUpper (b / 16) :: hexUpper (b % 16) :: queryEscape t) = _
        unfold queryUnescape
        rw [if_pos rfl]
        show (if (isHexByte (hexUpper (b / 16)) && isHexByte (hexUpper (b % 16))) = true then
            (queryUnescape (queryEscape t)).map
              (fun r => (unhexByte (hexUpper (b / 16)) * 16 + unhexByte (hexUpper (b % 16))) :: r)
          else none) = some (b :: t)
        rw [isHexByte_hexUpper (b / 16) (by omega), isHexByte_hexUpper (b % 16) (by omega)]
        simp only [Bool.and_self, if_true]
        rw [ih ht, unhexByte_hexUpper (b / 16) (by omega), unhexByte_hexUpper (b % 16) (by omega)]
        have hdm : b / 16 * 16 + b % 16 = b := by omega
        rw [hdm]
        rfl

/-! Helper lemmas about url.Values, sorting and the encoder. -/

theorem insertByKey_perm (x : GoStr × GoStr) (l : Values) : (insertByKey x l).Perm (x :: l) := by
  induction l with
  | nil => exact List.Perm.refl _
  | cons y ys ih =>
    unfold insertByKey
    split
    · exact List.Perm.refl _
    · exact (ih.cons y).trans (List.Perm.swap x y ys)

theorem sortByKey_perm (l : Values) : (sortByKey l).Perm l := by
  induction l with
  | nil => exact List.Perm.refl _
  | cons x xs ih =>
    unfold sortByKey
    exact (insertByKey_perm x (sortByKey xs)).trans (ih.cons x)

theorem intercalate_cons_cons (s x y : GoStr) (zs : List GoStr) :
    List.intercalate s (x :: y :: zs) = x ++ s ++ List.intercalate s (y :: zs) := by
  simp [List.intercalate, List.intersperse]

theorem infix_intercalate_of_mem (sep l : GoStr) (ls : List GoStr) (h : l ∈ ls) :
    l <:+: List.intercalate sep ls := by
  induction ls with
  | nil => cases h
  | cons a rest ih =>
    rcases List.mem_cons.mp h with rfl | h'
    · cases rest with
      | nil =>
        simp only [List.intercalate, List.intersperse, List.flatten]
        simp
      | cons b bs =>
        rw [intercalate_cons_cons]
        have : l <:+: l ++ (sep ++ List.intercalate sep (b :: bs)) :=
          (List.prefix_append l _).isInfix
        simpa [List.append_assoc] using this
    · cases rest with
      | nil => cases h'
      | cons b bs =>
        rw [intercalate_cons_cons]
        exact (ih h').trans ((List.suffix_append _ _).isInfix)

theorem segment_infix_encodeValues (v : Values) (k w : GoStr) (hmem : (k, w) ∈ v) :
    queryEscape k ++ 61 :: queryEscape w <:+: encodeValues v := by
  unfold encodeValues
  apply infix_intercalate_of_mem
  exact List.mem_map.mpr ⟨(k, w), (sortByKey_perm v).mem_iff.mpr hmem, rfl⟩

theorem valuesSet_append (acc : Values) (key val : GoStr) (h : ∀ p ∈ acc, p.1 ≠ key) :
    valuesSet acc key val = acc ++ [(key, val)] := by
  unfold valuesSet
  congr 1
  apply List.filter_eq_self.mpr
  intro p hp
  simpa [bne_iff_ne] using h p hp

theorem structToURLValues_go_mem_iff :
    ∀ (fields : List (GoStr × FieldVal)) (acc : Values),
      (fields.map Prod.fst).Nodup →
      (∀ p ∈ acc, p.1 ∉ fields.map Prod.fst) →
      ∀ k w,
        ((k, w) ∈ fields.foldl
            (fun val p =>
              if p.1 ≠ [] ∧ fieldKept p.2 then valuesSet val p.1 (fieldString p.2) else val) acc ↔
          (k, w) ∈ acc ∨ ∃ f, (k, f) ∈ fields ∧ k ≠ [] ∧ fieldKept f ∧ w = fieldString f) := by
  intro fields
  induction fields with
  | nil =>
    intro acc _ _ k w
    simp
  | cons tf rest ih =>
    obtain ⟨t, g⟩ := tf
    intro acc hnd hdisj k w
    simp only [List.map_cons, List.nodup_cons] at hnd
    simp only [List.foldl_cons]
    by_cases hc : t ≠ [] ∧ fieldKept g
    · rw [if_pos hc]
      have hset : valuesSet acc t (fieldString g) = acc ++ [(t, fieldString g)] := by
        apply valuesSet_append
        intro p hp
        have := hdisj p hp
        simp only [List.map_cons, List.mem_cons] at this
        tauto
      rw [hset]
      have hdisj' : ∀ p ∈ acc ++ [(t, fieldString g)], p.1 ∉ rest.map Prod.fst := by
        intro p hp
        rcases List.mem_append.mp hp with hp | hp
        · intro hmem
          exact hdisj p hp (by simp [hmem])
        · simp only [List.mem_singleton] at hp
          rw [hp]
          exact hnd.1
      rw [ih (acc ++ [(t, fieldString g)]) hnd.2 hdisj' k w]
      constructor
      · rintro (hacc | ⟨f, hf, hne, hkept, hw⟩)
        · rcases List.mem_append.mp hacc with hacc | hacc
          · exact Or.inl hacc
          · simp only [List.mem_singleton, Prod.mk.injEq] at hacc
            refine Or.inr ⟨g, ?_, ?_, ?_, ?_⟩
            · simp [hacc.1]
            · rw [hacc.1]; exact hc.1
            · exact hc.2
            · exact hacc.2
        · exact Or.inr ⟨f, List.mem_cons_of_mem _ hf, hne, hkept, hw⟩
      · rintro (hacc | ⟨f, hf, hne, hkept, hw⟩)
        · exact Or.inl (List.mem_append.mpr (Or.inl hacc))
        · rcases List.mem_cons.mp hf with hf | hf
          · simp only [Prod.mk.injEq] at hf
            refine Or.inl (List.mem_append.mpr (Or.inr ?_))
            simp only [List.mem_singleton, Prod.mk.injEq]
            exact ⟨hf.1, by rw [hw, hf.2]⟩
          · exact Or.inr ⟨f, hf, hne, hkept, hw⟩
    · rw [if_neg hc]
      have hdisj' : ∀ p ∈ acc, p.1 ∉ rest.map Prod.fst := by
        intro p hp hmem
        exact hdisj p hp (by simp [hmem])
      rw [ih acc hnd.2 hdisj' k w]
      constructor
      · rintro (hacc | ⟨f, hf, hne, hkept, hw⟩)
        · exact Or.inl hacc
        · exact Or.inr ⟨f, List.mem_cons_of_mem _ hf, hne, hkept, hw⟩
      · rintro (hacc | ⟨f, hf, hne, hkept, hw⟩)
        · exact Or.inl hacc
        · rcases List.mem_cons.mp hf with hf | hf
          · exfalso
            simp only [Prod.mk.injEq] at hf
            exact hc ⟨hf.1 ▸ hne, hf.2 ▸ hkept⟩
          · exact Or.inr ⟨f, hf, hne, hkept, hw⟩

theorem structToURLValues_mem_iff (fields : List (GoStr × FieldVal))
    (hnd : (fields.map Prod.fst).Nodup) (k w : GoStr) :
    (k, w) ∈ structToURLValues fields ↔
      ∃ f, (k, f) ∈ fields ∧ k ≠ [] ∧ fieldKept f ∧ w = fieldString f := by
  have h := structToURLValues_go_mem_iff fields [] hnd (by simp) k w
  simpa [structToURLValues] using h

theorem valuesSet_keys_nodup (v : Values) (key val : GoStr) (h : (v.map Prod.fst).Nodup) :
    ((valuesSet v key val).map Prod.fst).Nodup := by
  unfold valuesSet
  rw [List.map_append]
  have hsub : List.Sublist ((v.filter (fun p => p.1 != key)).map Prod.fst) (v.map Prod.fst) :=
    (List.filter_sublist v).map Prod.fst
  refine (h.sublist hsub).append (by simp) ?_
  intro a ha hb
  simp only [List.map_cons, List.map_nil, List.mem_singleton] at hb
  subst hb
  obtain ⟨p, hp, hpa⟩ := List.mem_map.mp ha
  have := (List.mem_filter.mp hp).2
  rw [hpa] at this
  simp [bne_iff_ne] at this

theorem structToURLValues_go_keys_nodup :
    ∀ (fields : List (GoStr × FieldVal)) (acc : Values), (acc.map Prod.fst).Nodup →
      (((fields.foldl
          (fun val p =>
            if p.1 ≠ [] ∧ fieldKept p.2 then valuesSet val p.1 (fieldString p.2) else val)
          acc)).map Prod.fst).Nodup := by
  intro fields
  induction fields with
  | nil => intro acc h; simpa
  | cons tf rest ih =>
    intro acc h
    simp only [List.foldl_cons]
    split
    · exact ih _ (valuesSet_keys_nodup _ _ _ h)
    · exact ih _ h

theorem structToURLValues_keys_nodup (fields : List (GoStr × FieldVal)) :
    ((structToURLValues fields).map Prod.fst).Nodup :=
  structToURLValues_go_keys_nodup fields [] (by simp)

theorem filter_key_eq_singleton (v : List (GoStr × GoStr)) (k w : GoStr)
    (hnd : (v.map Prod.fst).Nodup) (hmem : (k, w) ∈ v) :
    v.filter (fun p => p.1 == k) = [(k, w)] := by
  induction v with
  | nil => cases hmem
  | cons x xs ih =>
    simp only [List.map_cons, List.nodup_cons] at hnd
    rcases List.mem_cons.mp hmem with rfl | hmem'
    · rw [List.filter_cons]
      simp only [beq_self_eq_true, if_true]
      have hnil : xs.filter (fun p => p.1 == k) = [] := by
        apply List.filter_eq_nil_iff.mpr
        intro p hp
        simp only [beq_iff_eq]
        intro hpk
        exact hnd.1 (List.mem_map.mpr ⟨p, hp, hpk⟩)
      rw [hnil]
    · have hx : (x.1 == k) = false := by
        simp only [beq_eq_false_iff_ne, ne_eq]
        intro hxk
        apply hnd.1
        apply List.mem_map.mpr ⟨(k, w), hmem', ?_⟩
        rw [hxk]
      rw [List.filter_cons, hx]
      simp only [Bool.false_eq_true, if_false]
      exact ih hnd.2 hmem'

/-! Helper lemmas about the parser side of the round trip. -/

theorem cutByte_append_sep (sep : Nat) (k v : GoStr) (hk : sep ∉ k) :
    cutByte sep (k ++ sep :: v) = (k, v) := by
  induction k with
  | nil => simp [cutByte]
  | cons b bs ih =>
    have hb : b ≠ sep := fun h => hk (h ▸ List.mem_cons_self _ _)
    have hbs : sep ∉ bs := fun h => hk (List.mem_cons_of_mem _ h)
    simp only [List.cons_append, cutByte, if_neg hb, List.append_eq, ih hbs]

theorem parsePair_encode (k v : GoStr) (hk : validBytes k) (hv : validBytes v) :
    parsePair (queryEscape k ++ 61 :: queryEscape v) = some (k, v) := by
  have h61 : (61 : Nat) ∉ queryEscape k := fun h => (queryEscape_sep_free k 61 h).2.2 rfl
  unfold parsePair
  rw [cutByte_append_sep 61 (queryEscape k) (queryEscape v) h61]
  rw [queryUnescape_queryEscape k hk, queryUnescape_queryEscape v hv]

theorem segments_filterMap_parsePair (L : List (GoStr × GoStr))
    (hval : ∀ p ∈ L, validBytes p.1 ∧ validBytes p.2) :
    (L.map (fun p => queryEscape p.1 ++ 61 :: queryEscape p.2)).filterMap parsePair = L := by
  induction L with
  | nil => rfl
  | cons p ps ih =>
    simp only [List.map_cons, List.filterMap_cons]
    rw [parsePair_encode p.1 p.2 (hval p (List.mem_cons_self _ _)).1
      (hval p (List.mem_cons_self _ _)).2]
    rw [ih (fun q hq => hval q (List.mem_cons_of_mem _ hq))]

theorem parseQuery_segments (L : List (GoStr × GoStr))
    (hval : ∀ p ∈ L, validBytes p.1 ∧ validBytes p.2) :
    parseQuery
        (List.intercalate [38] (L.map (fun p => queryEscape p.1 ++ 61 :: queryEscape p.2))) = L := by
  cases hL : L with
  | nil => rfl
  | cons p ps =>
    rw [← hL]
    have hLne : L ≠ [] := by rw [hL]; exact List.cons_ne_nil _ _
    set segs := L.map (fun p => queryEscape p.1 ++ 61 :: queryEscape p.2) with hsegs
    have hsegs_ne : segs ≠ [] := by
      rw [hsegs, hL]
      exact List.cons_ne_nil _ _
    have h38 : ∀ s ∈ segs, (38 : Nat) ∉ s := by
      intro s hs
      rw [hsegs] at hs
      obtain ⟨q, _, rfl⟩ := List.mem_map.mp hs
      intro hmem
      rcases List.mem_append.mp hmem with hmem | hmem
      · exact (queryEscape_sep_free q.1 38 hmem).1 rfl
      · rcases List.mem_cons.mp hmem with h61 | hmem
        · omega
        · exact (queryEscape_sep_free q.2 38 hmem).1 rfl
    unfold parseQuery
    rw [show List.intercalate [38] segs = [38].intercalate segs from rfl]
    rw [List.splitOn_intercalate segs 38 h38 hsegs_ne]
    have hfilter : segs.filter (fun seg => !seg.contains 59 && !seg.isEmpty) = segs := by
      apply List.filter_eq_self.mpr
      intro s hs
      have hne : s ≠ [] := by
        rw [hsegs] at hs
        obtain ⟨q, _, rfl⟩ := List.mem_map.mp hs
        exact List.append_ne_nil_of_right_ne_nil _ (List.cons_ne_nil _ _)
      have h59 : (59 : Nat) ∉ s := by
        rw [hsegs] at hs
        obtain ⟨q, _, rfl⟩ := List.mem_map.mp hs
        intro hmem
        rcases List.mem_append.mp hmem with hmem | hmem
        · exact (queryEscape_sep_free q.1 59 hmem).2.1 rfl
        · rcases List.mem_cons.mp hmem with h61 | hmem
          · omega
          · exact (queryEscape_sep_free q.2 59 hmem).2.1 rfl
      simp only [Bool.and_eq_true, Bool.not_eq_true']
      constructor
      · rw [← Bool.not_eq_true]
        intro hc
        exact h59 (by simpa using hc)
      · simpa [List.isEmpty_iff] using hne
    rw [hfilter, hsegs]
    exact segments_filterMap_parsePair L hval

theorem parseQuery_encodeValues (v : Values)
    (hval : ∀ p ∈ v, validBytes p.1 ∧ validBytes p.2) :
    parseQuery (encodeValues v) = sortByKey v := by
  unfold encodeValues
  exact parseQuery_segments (sortByKey v)
    (fun p hp => hval p ((sortByKey_perm v).mem_iff.mp hp))

/-! Helper lemmas about the defaulting of the parameter records. -/

theorem photosApplyDefaults_eq (p : GetPhotosParams) :
    p.applyDefaults = { p with Page := if p.Page = 0 then 1 else p.Page,
                               PerPage := if p.PerPage = 0 then 5 else p.PerPage } := by
  unfold GetPhotosParams.applyDefaults
  by_cases h1 : p.Page = 0 <;> by_cases h2 : p.PerPage = 0 <;> simp [h1, h2]

theorem curatedApplyDefaults_eq (p : GetCuratedPhotoParams) :
    p.applyDefaults = { p with Page := if p.Page = 0 then 1 else p.Page,
                               PerPage := if p.PerPage = 0 then 5 else p.PerPage } := by
  unfold GetCuratedPhotoParams.applyDefaults
  by_cases h1 : p.Page = 0 <;> by_cases h2 : p.PerPage = 0 <;> simp [h1, h2]

theorem featuredApplyDefaults_eq (p : GetFeaturedCollectionParams) :
    p.applyDefaults = { p with Page := if p.Page = 0 then 1 else p.Page,
                               PerPage := if p.PerPage = 0 then 5 else p.PerPage } := by
  unfold GetFeaturedCollectionParams.applyDefaults
  by_cases h1 : p.Page = 0 <;> by_cases h2 : p.PerPage = 0 <;> simp [h1, h2]

theorem collectionMediaApplyDefaults_eq (p : GetCollectionMediaParams) :
    p.applyDefaults = { p with Page := if p.Page = 0 then 1 else p.Page,
                               PerPage := if p.PerPage = 0 then 5 else p.PerPage } := by
  unfold GetCollectionMediaParams.applyDefaults
  by_cases h1 : p.Page = 0 <;> by_cases h2 : p.PerPage = 0 <;> simp [h1, h2]

theorem videosApplyDefaults_eq (p : GetVideosParams) :
    p.applyDefaults = { p with Page := if p.Page = 0 then 1 else p.Page,
                               PerPage := if p.PerPage = 0 then 5 else p.PerPage } := by
  unfold GetVideosParams.applyDefaults
  by_cases h1 : p.Page = 0 <;> by_cases h2 : p.PerPage = 0 <;> simp [h1, h2]

theorem popularApplyDefaults_eq (p : GetPopularVideosParams) :
    p.applyDefaults = { p with Page := if p.Page = 0 then 1 else p.Page,
                               PerPage := if p.PerPage = 0 then 2 else p.PerPage } := by
  unfold GetPopularVideosParams.applyDefaults
  by_cases h1 : p.Page = 0 <;> by_cases h2 : p.PerPage = 0 <;> simp [h1, h2]

theorem photosApplyDefaults_Query (p : GetPhotosParams) :
    p.applyDefaults.Query = p.Query := by
  rw [photosApplyDefaults_eq]

theorem videosApplyDefaults_Query (p : GetVideosParams) :
    p.applyDefaults.Query = p.Query := by
  rw [videosApplyDefaults_eq]

theorem GetPhotos_finalParams (c : Client) (dec : GoStr → Except GoError GetPhotoResponse)
    (p : GetPhotosParams) (net : Net) :
    (GetPhotos c dec p net).finalParams = p.applyDefaults := by
  simp only [GetPhotos]
  split <;> rfl

theorem GetVideos_finalParams (c : Client) (dec : GoStr → Except GoError GetVideosResponse)
    (p : GetVideosParams) (net : Net) :
    (GetVideos c dec p net).finalParams = p.applyDefaults := by
  simp only [GetVideos]
  split <;> rfl

/-- C1: for the photo search and the video search bindings, a params record whose query
string is empty makes the call return the fixed validation error together with the nil
response (the error constructor of the result), and no request is ever constructed or
handed to the transport. -/
theorem emptyQuery_validation (c : Client)
    (dec₁ : GoStr → Except GoError GetPhotoResponse)
    (dec₂ : GoStr → Except GoError GetVideosResponse)
    (p : GetPhotosParams) (q : GetVideosParams) (net : Net)
    (hp : p.Query = []) (hq : q.Query = []) :
    (GetPhotos c dec₁ p net).result = .error ⟨ascii "Query field cannot be empty."⟩ ∧
    (GetPhotos c dec₁ p net).requests = [] ∧
    (GetVideos c dec₂ q net).result = .error ⟨ascii "Query field cannot be empty."⟩ ∧
    (GetVideos c dec₂ q net).requests = [] := by
  have hp' : p.applyDefaults.Query = [] := by
    rw [photosApplyDefaults_Query]; exact hp
  have hq' : q.applyDefaults.Query = [] := by
    rw [videosApplyDefaults_Query]; exact hq
  unfold GetPhotos GetVideos
  rw [if_pos hp', if_pos hq']
  exact ⟨rfl, rfl, rfl, rfl⟩

/-- Witness for the empty-query validation theorem at concrete empty-query records. -/
theorem emptyQuery_validation_witness :
    (GetPhotos (NewClient (ascii "key")) (failDec GetPhotoResponse)
        ⟨[], [], [], [], [], 0, 0⟩ failNet).result =
      .error ⟨ascii "Query field cannot be empty."⟩ ∧
    (GetPhotos (NewClient (ascii "key")) (failDec GetPhotoResponse)
        ⟨[], [], [], [], [], 0, 0⟩ failNet).requests = [] ∧
    (GetVideos (NewClient (ascii "key")) (failDec GetVideosResponse)
        ⟨[], [], [], [], 0, 0⟩ failNet).result =
      .error ⟨ascii "Query field cannot be empty."⟩ ∧
    (GetVideos (NewClient (ascii "key")) (failDec GetVideosResponse)
        ⟨[], [], [], [], 0, 0⟩ failNet).requests = [] :=
  emptyQuery_validation (NewClient (ascii "key")) (failDec GetPhotoResponse)
    (failDec GetVideosResponse) ⟨[], [], [], [], [], 0, 0⟩ ⟨[], [], [], [], 0, 0⟩ failNet rfl rfl

/-- C10: the search bindings write the pagination defaults through the caller-owned
params record before the empty-query validation runs, so a call that fails with the
validation error still leaves page 1 and per_page 5 in the record whenever those fields
were zero on entry; the record is not left unchanged on error. -/
theorem defaults_written_before_validation (c : Client)
    (dec₁ : GoStr → Except GoError GetPhotoResponse)
    (dec₂ : GoStr → Except GoError GetVideosResponse)
    (p : GetPhotosParams) (q : GetVideosParams) (net : Net)
    (hp : p.Query = []) (hq : q.Query = []) :
    (GetPhotos c dec₁ p net).result = .error ⟨ascii "Query field cannot be empty."⟩ ∧
    (p.Page = 0 → (GetPhotos c dec₁ p net).finalParams.Page = 1) ∧
    (p.PerPage = 0 → (GetPhotos c dec₁ p net).finalParams.PerPage = 5) ∧
    (GetVideos c dec₂ q net).result = .error ⟨ascii "Query field cannot be empty."⟩ ∧
    (q.Page = 0 → (GetVideos c dec₂ q net).finalParams.Page = 1) ∧
    (q.PerPage = 0 → (GetVideos c dec₂ q net).finalParams.PerPage = 5) := by
  have hp' : p.applyDefaults.Query = [] := by
    rw [photosApplyDefaults_Query]; exact hp
  have hq' : q.applyDefaults.Query = [] := by
    rw [videosApplyDefaults_Query]; exact hq
  refine ⟨?_, ?_, ?_, ?_, ?_, ?_⟩
  · unfold GetPhotos
    rw [if_pos hp']
  · intro h0
    rw [GetPhotos_finalParams, photosApplyDefaults_eq]
    simp [h0]
  · intro h0
    rw [GetPhotos_finalParams, photosApplyDefaults_eq]
    simp [h0]
  · unfold GetVideos
    rw [if_pos hq']
  · intro h0
    rw [GetVideos_finalParams, videosApplyDefaults_eq]
    simp [h0]
  · intro h0
    rw [GetVideos_finalParams, videosApplyDefaults_eq]
    simp [h0]

/-- Witness for the frame-effect theorem at concrete zero-paging empty-query records. -/
theorem defaults_written_before_validation_witness :
    (GetPhotos (NewClient (ascii "key")) (failDec GetPhotoResponse)
        ⟨[], [], [], [], [], 0, 0⟩ failNet).result =
      .error ⟨ascii "Query field cannot be empty."⟩ ∧
    ((0 : Int) = 0 → (GetPhotos (NewClient (ascii "key")) (failDec GetPhotoResponse)
        ⟨[], [], [], [], [], 0, 0⟩ failNet).finalParams.Page = 1) ∧
    ((0 : Int) = 0 → (GetPhotos (NewClient (ascii "key")) (failDec GetPhotoResponse)
        ⟨[], [], [], [], [], 0, 0⟩ failNet).finalParams.PerPage = 5) ∧
    (GetVideos (NewClient (ascii "key")) (failDec GetVideosResponse)
        ⟨[], [], [], [], 0, 0⟩ failNet).result =
      .error ⟨ascii "Query field cannot be empty."⟩ ∧
    ((0 : Int) = 0 → (GetVideos (NewClient (ascii "key")) (failDec GetVideosResponse)
        ⟨[], [], [], [], 0, 0⟩ failNet).finalParams.Page = 1) ∧
    ((0 : Int) = 0 → (GetVideos (NewClient (ascii "key")) (failDec GetVideosResponse)
        ⟨[], [], [], [], 0, 0⟩ failNet).finalParams.PerPage = 5) :=
  defaults_written_before_validation (NewClient (ascii "key")) (failDec GetPhotoResponse)
    (failDec GetVideosResponse) ⟨[], [], [], [], [], 0, 0⟩ ⟨[], [], [], [], 0, 0⟩ failNet rfl rfl

theorem sendRequest_ok {α : Type} (dec : GoStr → Except GoError α) (status : Int)
    (body : GoStr) :
    sendRequest dec (.ok ⟨status, body⟩) =
      if status < 200 ∨ 400 ≤ status then .error ⟨apiErrorMessage status body⟩ else dec body :=
  rfl

theorem sendRequest_transport_err {α : Type} (dec : GoStr → Except GoError α) (e : GoError) :
    sendRequest dec (.error e) = .error e := rfl

/-- C3: for every response whose status is below 200 or at least 400, sendRequest reads
the whole body and returns the error whose message carries both the decimal status and
the raw body text; in particular a 404 response with body Not found makes the photo
search binding fail with an error whose message contains 404 and Not found, yielding no
usable response value. -/
theorem sendRequest_error_carries_status {α : Type} (dec : GoStr → Except GoError α)
    (status : Int) (body : GoStr) (h : status < 200 ∨ 400 ≤ status) :
    (sendRequest dec (.ok ⟨status, body⟩) = .error ⟨apiErrorMessage status body⟩ ∧
      intToBytes status <:+: apiErrorMessage status body ∧
      body <:+: apiErrorMessage status body) ∧
    (∀ (c : Client) (dec₂ : GoStr → Except GoError GetPhotoResponse) (p : GetPhotosParams),
      p.Query ≠ [] →
        (GetPhotos c dec₂ p (constNet 404 (ascii "Not found"))).result =
            .error ⟨apiErrorMessage 404 (ascii "Not found")⟩ ∧
          ascii "404" <:+: apiErrorMessage 404 (ascii "Not found") ∧
          ascii "Not found" <:+: apiErrorMessage 404 (ascii "Not found")) := by
  constructor
  · refine ⟨?_, ?_, ?_⟩
    · rw [sendRequest_ok, if_pos h]
    · have hinf := List.infix_append (ascii "Unknown API error: ") (intToBytes status)
        (ascii " " ++ body)
      simpa [apiErrorMessage, List.append_assoc] using hinf
    · have hsuf : body <:+
          (ascii "Unknown API error: " ++ intToBytes status ++ ascii " ") ++ body :=
        List.suffix_append _ body
      simpa [apiErrorMessage, List.append_assoc] using hsuf.isInfix
  · intro c dec₂ p hqne
    have hq' : p.applyDefaults.Query ≠ [] := by
      rw [photosApplyDefaults_Query]; exact hqne
    refine ⟨?_, by decide, by decide⟩
    unfold GetPhotos
    rw [if_neg hq']
    show sendRequest dec₂ (Except.ok ⟨404, ascii "Not found"⟩) = _
    rw [sendRequest_ok, if_pos (by decide)]

/-- Witness for the status-error theorem at a concrete 500 response and at the concrete
404 photo search call. -/
theorem sendRequest_error_carries_status_witness :
    (sendRequest (failDec GetPhotoResponse) (.ok ⟨500, ascii "oops"⟩) =
        .error ⟨apiErrorMessage 500 (ascii "oops")⟩ ∧
      intToBytes 500 <:+: apiErrorMessage 500 (ascii "oops") ∧
      ascii "oops" <:+: apiErrorMessage 500 (ascii "oops")) ∧
    ((GetPhotos (NewClient (ascii "key")) (failDec GetPhotoResponse)
        ⟨ascii "nature", [], [], [], [], 0, 0⟩ (constNet 404 (ascii "Not found"))).result =
        .error ⟨apiErrorMessage 404 (ascii "Not found")⟩ ∧
      ascii "404" <:+: apiErrorMessage 404 (ascii "Not found") ∧
      ascii "Not found" <:+: apiErrorMessage 404 (ascii "Not found")) := by
  have h := sendRequest_error_carries_status (failDec GetPhotoResponse) 500 (ascii "oops")
    (by decide)
  exact ⟨h.1, h.2 (NewClient (ascii "key")) (failDec GetPhotoResponse)
    ⟨ascii "nature", [], [], [], [], 0, 0⟩ (by decide)⟩

/-- C4 counterexample: a 302 response has a status outside the 2xx range, yet the
pipeline hands its body to the decoder instead of returning a status-carrying error;
with a body the decoder accepts (in the source the decoder is json.Decode into the
destination struct, which succeeds on such a body) the call produces a usable value and
no error at all. -/
theorem sendRequest_redirect_counterexample :
    sendRequest (fun _ => Except.ok (0 : Nat)) (Except.ok ⟨302, ascii "Found"⟩) =
      Except.ok 0 := by
  rw [sendRequest_ok, if_neg (by decide)]

/-- C4 amended: the pipeline returns the error carrying the literal status and the raw
body exactly for statuses below 200 or at least 400; a status from 200 through 399,
which includes the whole 3xx range, is handed to the decoder as a success. -/
theorem sendRequest_status_classification {α : Type} (dec : GoStr → Except GoError α)
    (status : Int) (body : GoStr) :
    (status < 200 ∨ 400 ≤ status →
      sendRequest dec (.ok ⟨status, body⟩) = .error ⟨apiErrorMessage status body⟩) ∧
    (200 ≤ status → status < 400 → sendRequest dec (.ok ⟨status, body⟩) = dec body) := by
  constructor
  · intro h
    rw [sendRequest_ok, if_pos h]
  · intro h1 h2
    rw [sendRequest_ok, if_neg (by omega)]

/-- Witness for the status-classification theorem at a 302 and at a 404 response. -/
theorem sendRequest_status_classification_witness :
    sendRequest (failDec GetPhotoResponse) (.ok ⟨302, ascii "Found"⟩) =
      failDec GetPhotoResponse (ascii "Found") ∧
    sendRequest (failDec GetPhotoResponse) (.ok ⟨404, ascii "NF"⟩) =
      .error ⟨apiErrorMessage 404 (ascii "NF")⟩ :=
  ⟨(sendRequest_status_classification (failDec GetPhotoResponse) 302 (ascii "Found")).2
      (by decide) (by decide),
    (sendRequest_status_classification (failDec GetPhotoResponse) 404 (ascii "NF")).1
      (by decide)⟩

theorem nodup_keys_unique {β : Type} (l : List (GoStr × β)) (hnd : (l.map Prod.fst).Nodup)
    (k : GoStr) (a b : β) (ha : (k, a) ∈ l) (hb : (k, b) ∈ l) : a = b := by
  induction l with
  | nil => cases ha
  | cons x xs ih =>
    simp only [List.map_cons, List.nodup_cons] at hnd
    rcases List.mem_cons.mp ha with ha' | ha' <;> rcases List.mem_cons.mp hb with hb' | hb'
    · have := ha'.trans hb'.symm
      simpa using this
    · exfalso
      apply hnd.1
      rw [← ha']
      exact List.mem_map.mpr ⟨(k, b), hb', rfl⟩
    · exfalso
      apply hnd.1
      rw [← hb']
      exact List.mem_map.mpr ⟨(k, a), ha', rfl⟩
    · exact ih hnd.2 ha' hb'

/-- C5: the encoder emits a pair for a field exactly when the field has a non-empty url
tag and its value is not the zero value of its kind (a non-empty string, a non-zero
int), and a field that fails this test leaves its tag entirely absent from the output
mapping. -/
theorem encoder_zero_value_filter (fields : List (GoStr × FieldVal))
    (hnd : (fields.map Prod.fst).Nodup) (tag : GoStr) (f : FieldVal)
    (hmem : (tag, f) ∈ fields) :
    ((tag ≠ [] ∧ (match f with | .str s => s ≠ [] | .int n => n ≠ 0)) →
        (tag, fieldString f) ∈ structToURLValues fields) ∧
    (¬(tag ≠ [] ∧ (match f with | .str s => s ≠ [] | .int n => n ≠ 0)) →
        ∀ w, (tag, w) ∉ structToURLValues fields) := by
  have hkept_iff : fieldKept f = true ↔
      (match f with | .str s => s ≠ [] | .int n => n ≠ 0) := by
    cases f with
    | str s => exact fieldKept_str s
    | int n => exact fieldKept_int n
  constructor
  · rintro ⟨hne, hz⟩
    exact (structToURLValues_mem_iff fields hnd tag (fieldString f)).mpr
      ⟨f, hmem, hne, hkept_iff.mpr hz, rfl⟩
  · intro hnot w hw
    obtain ⟨g, hg, hne, hkept, hwv⟩ := (structToURLValues_mem_iff fields hnd tag w).mp hw
    have hgf : g = f := nodup_keys_unique fields hnd tag g f hg hmem
    exact hnot ⟨hne, hkept_iff.mp (hgf ▸ hkept)⟩

/-- Witness for the zero-value filter theorem on a concrete two-field record: the
non-zero int field is emitted, the zero-value string field leaves its tag absent. -/
theorem encoder_zero_value_filter_witness :
    (ascii "page", fieldString (FieldVal.int 3)) ∈
      structToURLValues [(ascii "page", FieldVal.int 3), (ascii "q", FieldVal.str [])] ∧
    (ascii "q", ascii "x") ∉
      structToURLValues [(ascii "page", FieldVal.int 3), (ascii "q", FieldVal.str [])] := by
  constructor
  · exact (encoder_zero_value_filter
      [(ascii "page", FieldVal.int 3), (ascii "q", FieldVal.str [])]
      (by decide) (ascii "page") (FieldVal.int 3) (by decide)).1 ⟨by decide, by decide⟩
  · exact (encoder_zero_value_filter
      [(ascii "page", FieldVal.int 3), (ascii "q", FieldVal.str [])]
      (by decide) (ascii "q") (FieldVal.str []) (by decide)).2 (by decide) (ascii "x")

/-- C7: collection listing routes to the featured path when the own flag is false and
to the plain collections path when it is true; the two public wrappers reach
getCollections with the corresponding flag, and the defaulting, encoded query, method,
headers, and the handing of the response to the pipeline are identical in both cases. -/
theorem collections_routing (c : Client) (dec : GoStr → Except GoError GetCollectionsResponse)
    (p : GetFeaturedCollectionParams) (net : Net) :
    GetFeaturedCollections c dec p net = getCollections c dec p false net ∧
    GetUserCollections c dec p net = getCollections c dec p true net ∧
    (getCollections c dec p false net).requests.map Request.url =
      [c.BaseURL ++ c.Version ++ ascii "/collections/featured?" ++
        encodeValues (structToURLValues p.applyDefaults.toFields)] ∧
    (getCollections c dec p true net).requests.map Request.url =
      [c.BaseURL ++ c.Version ++ ascii "/collections?" ++
        encodeValues (structToURLValues p.applyDefaults.toFields)] ∧
    (getCollections c dec p false net).finalParams =
      (getCollections c dec p true net).finalParams ∧
    (getCollections c dec p false net).requests.map Request.method =
      (getCollections c dec p true net).requests.map Request.method ∧
    (getCollections c dec p false net).requests.map Request.headers =
      (getCollections c dec p true net).requests.map Request.headers ∧
    (∀ own : Bool, ∀ r ∈ (getCollections c dec p own net).requests,
      (getCollections c dec p own net).result = sendRequest dec (net r)) := by
  refine ⟨rfl, rfl, rfl, rfl, rfl, rfl, rfl, ?_⟩
  intro own r hr
  cases own
  · simp only [getCollections, List.mem_singleton] at hr
    subst hr
    rfl
  · simp only [getCollections, List.mem_singleton] at hr
    subst hr
    rfl

/-- C8: every binding formats its target URL as the base URL, the version segment, the
resource path and the encoded params, except that the video endpoints omit the version
segment: video search uses the slash videos slash search prefix, popular videos appends
videos slash popular directly to the base URL without a separating slash, and video by
id uses the doubled videos segment. -/
theorem request_url_shapes (c : Client)
    (d₁ d₂ : GoStr → Except GoError GetPhotoResponse) (d₃ : GoStr → Except GoError Photo)
    (d₄ : GoStr → Except GoError GetCollectionsResponse)
    (d₅ : GoStr → Except GoError CollectionMedia) (d₆ : GoStr → Except GoError Video)
    (d₇ d₈ : GoStr → Except GoError GetVideosResponse)
    (p₁ : GetPhotosParams) (p₂ : GetCuratedPhotoParams) (p₄ : GetFeaturedCollectionParams)
    (p₅ : GetCollectionMediaParams) (p₇ : GetPopularVideosParams) (p₈ : GetVideosParams)
    (id₃ id₅ id₆ : GoStr) (own : Bool) (net : Net)
    (h₁ : p₁.Query ≠ []) (h₈ : p₈.Query ≠ []) :
    (GetPhotos c d₁ p₁ net).requests.map Request.url =
      [c.BaseURL ++ c.Version ++ ascii "/search?" ++
        encodeValues (structToURLValues p₁.applyDefaults.toFields)] ∧
    (GetCurated c d₂ p₂ net).requests.map Request.url =
      [c.BaseURL ++ c.Version ++ ascii "/curated?" ++
        encodeValues (structToURLValues p₂.applyDefaults.toFields)] ∧
    (GetPhoto c d₃ id₃ net).requests.map Request.url =
      [c.BaseURL ++ c.Version ++ ascii "/photos/" ++ id₃] ∧
    (getCollections c d₄ p₄ own net).requests.map Request.url =
      [if own then
          c.BaseURL ++ c.Version ++ ascii "/collections?" ++
            encodeValues (structToURLValues p₄.applyDefaults.toFields)
        else
          c.BaseURL ++ c.Version ++ ascii "/collections/featured?" ++
            encodeValues (structToURLValues p₄.applyDefaults.toFields)] ∧
    (GetCollection c d₅ p₅ id₅ net).requests.map Request.url =
      [c.BaseURL ++ c.Version ++ ascii "/collections/" ++ id₅ ++ ascii "?" ++
        encodeValues (structToURLValues p₅.applyDefaults.toFields)] ∧
    (GetVideo c d₆ id₆ net).requests.map Request.url =
      [c.BaseURL ++ ascii "/videos/videos/" ++ id₆] ∧
    (GetPopularVideos c d₇ p₇ net).requests.map Request.url =
      [c.BaseURL ++ ascii "videos/popular?" ++
        encodeValues (structToURLValues p₇.applyDefaults.toFields)] ∧
    (GetVideos c d₈ p₈ net).requests.map Request.url =
      [c.BaseURL ++ ascii "/videos/search?" ++
        encodeValues (structToURLValues p₈.applyDefaults.toFields)] := by
  have h₁' : p₁.applyDefaults.Query ≠ [] := by
    rw [photosApplyDefaults_Query]; exact h₁
  have h₈' : p₈.applyDefaults.Query ≠ [] := by
    rw [videosApplyDefaults_Query]; exact h₈
  refine ⟨?_, rfl, rfl, ?_, rfl, rfl, rfl, ?_⟩
  · unfold GetPhotos
    rw [if_neg h₁']
    rfl
  · cases own <;> rfl
  · unfold GetVideos
    rw [if_neg h₈']
    rfl

/-- Witness for the URL-shape theorem, read off at concrete inputs for the photo search
binding. -/
theorem request_url_shapes_witness :
    (GetPhotos (NewClient (ascii "key")) (failDec GetPhotoResponse)
        ⟨ascii "dog", [], [], [], [], 0, 0⟩ failNet).requests.map Request.url =
      [BaseURL ++ Version ++ ascii "/search?" ++
        encodeValues (structToURLValues
          (GetPhotosParams.mk (ascii "dog") [] [] [] [] 0 0).applyDefaults.toFields)] :=
  (request_url_shapes (NewClient (ascii "key")) (failDec GetPhotoResponse)
    (failDec GetPhotoResponse) (failDec Photo) (failDec GetCollectionsResponse)
    (failDec CollectionMedia) (failDec Video) (failDec GetVideosResponse)
    (failDec GetVideosResponse) ⟨ascii "dog", [], [], [], [], 0, 0⟩ ⟨0, 0⟩ ⟨0, 0⟩
    ⟨[], [], 0, 0⟩ ⟨0, 0, 0, 0, 0, 0⟩ ⟨ascii "cat", [], [], [], 0, 0⟩
    (ascii "1") (ascii "2") (ascii "3") false failNet (by decide) (by decide)).1

/-- C9: every binding sets the Accept header to application json and the Authorization
header to the raw API key with no Bearer prefix; every binding except the plain photo
search and the plain video search additionally sets Content-Type application json, and
those two search bindings set no Content-Type header at all. -/
theorem request_headers (c : Client)
    (d₁ d₂ : GoStr → Except GoError GetPhotoResponse) (d₃ : GoStr → Except GoError Photo)
    (d₄ : GoStr → Except GoError GetCollectionsResponse)
    (d₅ : GoStr → Except GoError CollectionMedia) (d₆ : GoStr → Except GoError Video)
    (d₇ d₈ : GoStr → Except GoError GetVideosResponse)
    (p₁ : GetPhotosParams) (p₂ : GetCuratedPhotoParams) (p₄ : GetFeaturedCollectionParams)
    (p₅ : GetCollectionMediaParams) (p₇ : GetPopularVideosParams) (p₈ : GetVideosParams)
    (id₃ id₅ id₆ : GoStr) (own : Bool) (net : Net)
    (h₁ : p₁.Query ≠ []) (h₈ : p₈.Query ≠ []) :
    (GetPhotos c d₁ p₁ net).requests.map
        (fun r => (headerGet r.headers (ascii "Accept"),
          headerGet r.headers (ascii "Content-Type"),
          headerGet r.headers (ascii "Authorization"))) =
      [(some (ascii "application/json"), none, some c.ApiKey)] ∧
    (GetCurated c d₂ p₂ net).requests.map
        (fun r => (headerGet r.headers (ascii "Accept"),
          headerGet r.headers (ascii "Content-Type"),
          headerGet r.headers (ascii "Authorization"))) =
      [(some (ascii "application/json"), some (ascii "application/json"), some c.ApiKey)] ∧
    (GetPhoto c d₃ id₃ net).requests.map
        (fun r => (headerGet r.headers (ascii "Accept"),
          headerGet r.headers (ascii "Content-Type"),
          headerGet r.headers (ascii "Authorization"))) =
      [(some (ascii "application/json"), some (ascii "application/json"), some c.ApiKey)] ∧
    (getCollections c d₄ p₄ own net).requests.map
        (fun r => (headerGet r.headers (ascii "Accept"),
          headerGet r.headers (ascii "Content-Type"),
          headerGet r.headers (ascii "Authorization"))) =
      [(some (ascii "application/json"), some (ascii "application/json"), some c.ApiKey)] ∧
    (GetCollection c d₅ p₅ id₅ net).requests.map
        (fun r => (headerGet r.headers (ascii "Accept"),
          headerGet r.headers (ascii "Content-Type"),
          headerGet r.headers (ascii "Authorization"))) =
      [(some (ascii "application/json"), some (ascii "application/json"), some c.ApiKey)] ∧
    (GetVideo c d₆ id₆ net).requests.map
        (fun r => (headerGet r.headers (ascii "Accept"),
          headerGet r.headers (ascii "Content-Type"),
          headerGet r.headers (ascii "Authorization"))) =
      [(some (ascii "application/json"), some (ascii "application/json"), some c.ApiKey)] ∧
    (GetPopularVideos c d₇ p₇ net).requests.map
        (fun r => (headerGet r.headers (ascii "Accept"),
          headerGet r.headers (ascii "Content-Type"),
          headerGet r.headers (ascii "Authorization"))) =
      [(some (ascii "application/json"), some (ascii "application/json"), some c.ApiKey)] ∧
    (GetVideos c d₈ p₈ net).requests.map
        (fun r => (headerGet r.headers (ascii "Accept"),
          headerGet r.headers (ascii "Content-Type"),
          headerGet r.headers (ascii "Authorization"))) =
      [(some (ascii "application/json"), none, some c.ApiKey)] := by
  have h₁' : p₁.applyDefaults.Query ≠ [] := by
    rw [photosApplyDefaults_Query]; exact h₁
  have h₈' : p₈.applyDefaults.Query ≠ [] := by
    rw [videosApplyDefaults_Query]; exact h₈
  refine ⟨?_, rfl, rfl, ?_, rfl, rfl, rfl, ?_⟩
  · unfold GetPhotos
    rw [if_neg h₁']
    rfl
  · cases own <;> rfl
  · unfold GetVideos
    rw [if_neg h₈']
    rfl

/-- Witness for the header theorem, read off at concrete inputs for the photo search
binding (no Content-Type, raw key in Authorization). -/
theorem request_headers_witness :
    (GetPhotos (NewClient (ascii "key")) (failDec GetPhotoResponse)
        ⟨ascii "dog", [], [], [], [], 0, 0⟩ failNet).requests.map
        (fun r => (headerGet r.headers (ascii "Accept"),
          headerGet r.headers (ascii "Content-Type"),
          headerGet r.headers (ascii "Authorization"))) =
      [(some (ascii "application/json"), none, some (ascii "key"))] :=
  (request_headers (NewClient (ascii "key")) (failDec GetPhotoResponse)
    (failDec GetPhotoResponse) (failDec Photo) (failDec GetCollectionsResponse)
    (failDec CollectionMedia) (failDec Video) (failDec GetVideosResponse)
    (failDec GetVideosResponse) ⟨ascii "dog", [], [], [], [], 0, 0⟩ ⟨0, 0⟩ ⟨0, 0⟩
    ⟨[], [], 0, 0⟩ ⟨0, 0, 0, 0, 0, 0⟩ ⟨ascii "cat", [], [], [], 0, 0⟩
    (ascii "1") (ascii "2") (ascii "3") false failNet (by decide) (by decide)).1

/-! Helper lemmas for the pagination-default claims. -/

theorem photosToFields_keys_nodup (p : GetPhotosParams) :
    ((p.toFields).map Prod.fst).Nodup := by
  unfold GetPhotosParams.toFields
  simp only [List.map_cons, List.map_nil]
  decide

theorem curatedToFields_keys_nodup (p : GetCuratedPhotoParams) :
    ((p.toFields).map Prod.fst).Nodup := by
  unfold GetCuratedPhotoParams.toFields
  simp only [List.map_cons, List.map_nil]
  decide

theorem featuredToFields_keys_nodup (p : GetFeaturedCollectionParams) :
    ((p.toFields).map Prod.fst).Nodup := by
  unfold GetFeaturedCollectionParams.toFields
  simp only [List.map_cons, List.map_nil]
  decide

theorem collectionMediaToFields_keys_nodup (p : GetCollectionMediaParams) :
    ((p.toFields).map Prod.fst).Nodup := by
  unfold GetCollectionMediaParams.toFields
  simp only [List.map_cons, List.map_nil]
  decide

theorem videosToFields_keys_nodup (p : GetVideosParams) :
    ((p.toFields).map Prod.fst).Nodup := by
  unfold GetVideosParams.toFields
  simp only [List.map_cons, List.map_nil]
  decide

theorem popularToFields_keys_nodup (p : GetPopularVideosParams) :
    ((p.toFields).map Prod.fst).Nodup := by
  unfold GetPopularVideosParams.toFields
  simp only [List.map_cons, List.map_nil]
  decide

theorem encoded_field_infix (fields : List (GoStr × FieldVal))
    (hnd : (fields.map Prod.fst).Nodup) (tag : GoStr) (f : FieldVal)
    (hmem : (tag, f) ∈ fields) (hne : tag ≠ []) (hkept : fieldKept f) :
    queryEscape tag ++ 61 :: queryEscape (fieldString f) <:+:
      encodeValues (structToURLValues fields) := by
  apply segment_infix_encodeValues
  exact (structToURLValues_mem_iff fields hnd tag (fieldString f)).mpr ⟨f, hmem, hne, hkept, rfl⟩

theorem page_one_infix (fields : List (GoStr × FieldVal))
    (hnd : (fields.map Prod.fst).Nodup) (hmem : (ascii "page", FieldVal.int 1) ∈ fields) :
    ascii "page=1" <:+: encodeValues (structToURLValues fields) := by
  have h : ascii "page=1" =
      queryEscape (ascii "page") ++ 61 :: queryEscape (fieldString (FieldVal.int 1)) := by decide
  rw [h]
  exact encoded_field_infix fields hnd _ _ hmem (by decide) (by decide)

theorem perPage_five_infix (fields : List (GoStr × FieldVal))
    (hnd : (fields.map Prod.fst).Nodup) (hmem : (ascii "per_page", FieldVal.int 5) ∈ fields) :
    ascii "per_page=5" <:+: encodeValues (structToURLValues fields) := by
  have h : ascii "per_page=5" =
      queryEscape (ascii "per_page") ++ 61 :: queryEscape (fieldString (FieldVal.int 5)) := by
    decide
  rw [h]
  exact encoded_field_infix fields hnd _ _ hmem (by decide) (by decide)

theorem perPage_two_infix (fields : List (GoStr × FieldVal))
    (hnd : (fields.map Prod.fst).Nodup) (hmem : (ascii "per_page", FieldVal.int 2) ∈ fields) :
    ascii "per_page=2" <:+: encodeValues (structToURLValues fields) := by
  have h : ascii "per_page=2" =
      queryEscape (ascii "per_page") ++ 61 :: queryEscape (fieldString (FieldVal.int 2)) := by
    decide
  rw [h]
  exact encoded_field_infix fields hnd _ _ hmem (by decide) (by decide)

/-- C2: for every list-shape binding, the query encoded after defaulting contains the
segment page equals 1 whenever the incoming page was zero, and the segment per_page
equals the endpoint default whenever the incoming per_page was zero: 5 for photo
search, curated photos, video search, featured and user collections and collection
media by id, and 2 for popular videos. The bindings build their request URL from
exactly this encoded query of the defaulted record. -/
theorem list_defaults_encoded (p₁ : GetPhotosParams) (p₂ : GetCuratedPhotoParams)
    (p₃ : GetVideosParams) (p₄ : GetPopularVideosParams) (p₅ : GetFeaturedCollectionParams)
    (p₆ : GetCollectionMediaParams) :
    (p₁.Page = 0 →
      ascii "page=1" <:+: encodeValues (structToURLValues p₁.applyDefaults.toFields)) ∧
    (p₁.PerPage = 0 →
      ascii "per_page=5" <:+: encodeValues (structToURLValues p₁.applyDefaults.toFields)) ∧
    (p₂.Page = 0 →
      ascii "page=1" <:+: encodeValues (structToURLValues p₂.applyDefaults.toFields)) ∧
    (p₂.PerPage = 0 →
      ascii "per_page=5" <:+: encodeValues (structToURLValues p₂.applyDefaults.toFields)) ∧
    (p₃.Page = 0 →
      ascii "page=1" <:+: encodeValues (structToURLValues p₃.applyDefaults.toFields)) ∧
    (p₃.PerPage = 0 →
      ascii "per_page=5" <:+: encodeValues (structToURLValues p₃.applyDefaults.toFields)) ∧
    (p₄.Page = 0 →
      ascii "page=1" <:+: encodeValues (structToURLValues p₄.applyDefaults.toFields)) ∧
    (p₄.PerPage = 0 →
      ascii "per_page=2" <:+: encodeValues (structToURLValues p₄.applyDefaults.toFields)) ∧
    (p₅.Page = 0 →
      ascii "page=1" <:+: encodeValues (structToURLValues p₅.applyDefaults.toFields)) ∧
    (p₅.PerPage = 0 →
      ascii "per_page=5" <:+: encodeValues (structToURLValues p₅.applyDefaults.toFields)) ∧
    (p₆.Page = 0 →
      ascii "page=1" <:+: encodeValues (structToURLValues p₆.applyDefaults.toFields)) ∧
    (p₆.PerPage = 0 →
      ascii "per_page=5" <:+: encodeValues (structToURLValues p₆.applyDefaults.toFields)) := by
  refine ⟨?_, ?_, ?_, ?_, ?_, ?_, ?_, ?_, ?_, ?_, ?_, ?_⟩
  · intro h0
    apply page_one_infix _ (photosToFields_keys_nodup _)
    have hP : p₁.applyDefaults.Page = 1 := by
      rw [photosApplyDefaults_eq]; simp [h0]
    rw [← hP]
    unfold GetPhotosParams.toFields
    simp
  · intro h0
    apply perPage_five_infix _ (photosToFields_keys_nodup _)
    have hP : p₁.applyDefaults.PerPage = 5 := by
      rw [photosApplyDefaults_eq]; simp [h0]
    rw [← hP]
    unfold GetPhotosParams.toFields
    simp
  · intro h0
    apply page_one_infix _ (curatedToFields_keys_nodup _)
    have hP : p₂.applyDefaults.Page = 1 := by
      rw [curatedApplyDefaults_eq]; simp [h0]
    rw [← hP]
    unfold GetCuratedPhotoParams.toFields
    simp
  · intro h0
    apply perPage_five_infix _ (curatedToFields_keys_nodup _)
    have hP : p₂.applyDefaults.PerPage = 5 := by
      rw [curatedApplyDefaults_eq]; simp [h0]
    rw [← hP]
    unfold GetCuratedPhotoParams.toFields
    simp
  · intro h0
    apply page_one_infix _ (videosToFields_keys_nodup _)
    have hP : p₃.applyDefaults.Page = 1 := by
      rw [videosApplyDefaults_eq]; simp [h0]
    rw [← hP]
    unfold GetVideosParams.toFields
    simp
  · intro h0
    apply perPage_five_infix _ (videosToFields_keys_nodup _)
    have hP : p₃.applyDefaults.PerPage = 5 := by
      rw [videosApplyDefaults_eq]; simp [h0]
    rw [← hP]
    unfold GetVideosParams.toFields
    simp
  · intro h0
    apply page_one_infix _ (popularToFields_keys_nodup _)
    have hP : p₄.applyDefaults.Page = 1 := by
      rw [popularApplyDefaults_eq]; simp [h0]
    rw [← hP]
    unfold GetPopularVideosParams.toFields
    simp
  · intro h0
    apply perPage_two_infix _ (popularToFields_keys_nodup _)
    have hP : p₄.applyDefaults.PerPage = 2 := by
      rw [popularApplyDefaults_eq]; simp [h0]
    rw [← hP]
    unfold GetPopularVideosParams.toFields
    simp
  · intro h0
    apply page_one_infix _ (featuredToFields_keys_nodup _)
    have hP : p₅.applyDefaults.Page = 1 := by
      rw [featuredApplyDefaults_eq]; simp [h0]
    rw [← hP]
    unfold GetFeaturedCollectionParams.toFields
    simp
  · intro h0
    apply perPage_five_infix _ (featuredToFields_keys_nodup _)
    have hP : p₅.applyDefaults.PerPage = 5 := by
      rw [featuredApplyDefaults_eq]; simp [h0]
    rw [← hP]
    unfold GetFeaturedCollectionParams.toFields
    simp
  · intro h0
    apply page_one_infix _ (collectionMediaToFields_keys_nodup _)
    have hP : p₆.applyDefaults.Page = 1 := by
      rw [collectionMediaApplyDefaults_eq]; simp [h0]
    rw [← hP]
    unfold GetCollectionMediaParams.toFields
    simp
  · intro h0
    apply perPage_five_infix _ (collectionMediaToFields_keys_nodup _)
    have hP : p₆.applyDefaults.PerPage = 5 := by
      rw [collectionMediaApplyDefaults_eq]; simp [h0]
    rw [← hP]
    unfold GetCollectionMediaParams.toFields
    simp

/-- Witness for the pagination-default theorem at concrete all-zero records: the photo
search query encodes page equals 1 and the popular videos query encodes per_page equals
2. -/
theorem list_defaults_encoded_witness :
    ascii "page=1" <:+: encodeValues (structToURLValues
      (GetPhotosParams.mk (ascii "dog") [] [] [] [] 0 0).applyDefaults.toFields) ∧
    ascii "per_page=2" <:+: encodeValues (structToURLValues
      (GetPopularVideosParams.mk 0 0 0 0 0 0).applyDefaults.toFields) := by
  obtain ⟨h₁, -, -, -, -, -, -, h₈, -⟩ :=
    list_defaults_encoded ⟨ascii "dog", [], [], [], [], 0, 0⟩ ⟨0, 0⟩
      ⟨ascii "cat", [], [], [], 0, 0⟩ ⟨0, 0, 0, 0, 0, 0⟩ ⟨0, 0⟩ ⟨[], [], 0, 0⟩
  exact ⟨h₁ rfl, h₈ rfl⟩

/-! Helper lemmas for the round-trip claim. -/

theorem structToURLValues_valid (fields : List (GoStr × FieldVal))
    (hnd : (fields.map Prod.fst).Nodup)
    (hfv : ∀ q ∈ fields, validBytes q.1 ∧ validBytes (fieldString q.2)) :
    ∀ p ∈ structToURLValues fields, validBytes p.1 ∧ validBytes p.2 := by
  rintro ⟨k, w⟩ hp
  obtain ⟨f, hf, -, -, rfl⟩ := (structToURLValues_mem_iff fields hnd k w).mp hp
  exact ⟨(hfv _ hf).1, (hfv _ hf).2⟩

theorem getAll_encode_roundtrip (fields : List (GoStr × FieldVal))
    (hnd : (fields.map Prod.fst).Nodup)
    (hfv : ∀ q ∈ fields, validBytes q.1 ∧ validBytes (fieldString q.2))
    (tag : GoStr) (f : FieldVal) (hmem : (tag, f) ∈ fields) (hne : tag ≠ [])
    (hkept : fieldKept f) :
    getAll (parseQuery (encodeValues (structToURLValues fields))) tag = [fieldString f] := by
  rw [parseQuery_encodeValues _ (structToURLValues_valid fields hnd hfv)]
  unfold getAll
  have hmemV : (tag, fieldString f) ∈ structToURLValues fields :=
    (structToURLValues_mem_iff fields hnd tag (fieldString f)).mpr ⟨f, hmem, hne, hkept, rfl⟩
  have hperm : ((sortByKey (structToURLValues fields)).filter (fun p => p.1 == tag)).Perm
      ((structToURLValues fields).filter (fun p => p.1 == tag)) :=
    (sortByKey_perm _).filter _
  rw [filter_key_eq_singleton _ tag (fieldString f) (structToURLValues_keys_nodup fields) hmemV]
    at hperm
  rw [List.perm_singleton.mp hperm]
  rfl

/-- C6: encoding a photo search parameter record with the encoder and then parsing the
produced query string recovers exactly the original non-zero field values: each
non-empty string field (size, color, orientation, query) comes back as the single value
stored under its key, each non-zero int field (page, per_page) comes back as its decimal
rendering, and the decimal rendering is injective, so the original int value is
recovered; parse after encode is a left inverse on the non-zero fields. -/
theorem encode_parse_roundtrip (p : GetPhotosParams)
    (hq : validBytes p.Query) (ho : validBytes p.Orientation) (hs : validBytes p.Size)
    (hc : validBytes p.Color) (hl : validBytes p.Locale) :
    (p.Size ≠ [] →
      getAll (parseQuery (encodeValues (structToURLValues p.toFields))) (ascii "size") =
        [p.Size]) ∧
    (p.Color ≠ [] →
      getAll (parseQuery (encodeValues (structToURLValues p.toFields))) (ascii "color") =
        [p.Color]) ∧
    (p.Orientation ≠ [] →
      getAll (parseQuery (encodeValues (structToURLValues p.toFields))) (ascii "orientation") =
        [p.Orientation]) ∧
    (p.Query ≠ [] →
      getAll (parseQuery (encodeValues (structToURLValues p.toFields))) (ascii "query") =
        [p.Query]) ∧
    (p.Page ≠ 0 →
      getAll (parseQuery (encodeValues (structToURLValues p.toFields))) (ascii "page") =
        [intToBytes p.Page]) ∧
    (p.PerPage ≠ 0 →
      getAll (parseQuery (encodeValues (structToURLValues p.toFields))) (ascii "per_page") =
        [intToBytes p.PerPage]) ∧
    (∀ m n : Int, intToBytes m = intToBytes n → m = n) := by
  have hnd := photosToFields_keys_nodup p
  have hfv : ∀ q ∈ p.toFields, validBytes q.1 ∧ validBytes (fieldString q.2) := by
    unfold GetPhotosParams.toFields
    intro q hmem
    simp only [List.mem_cons, List.not_mem_nil, or_false] at hmem
    rcases hmem with rfl | rfl | rfl | rfl | rfl | rfl | rfl
    · exact ⟨(by decide : validBytes (ascii "query")), hq⟩
    · exact ⟨(by decide : validBytes (ascii "orientation")), ho⟩
    · exact ⟨(by decide : validBytes (ascii "size")), hs⟩
    · exact ⟨(by decide : validBytes (ascii "color")), hc⟩
    · exact ⟨(by decide : validBytes (ascii "locale")), hl⟩
    · exact ⟨(by decide : validBytes (ascii "page")), intToBytes_valid _⟩
    · exact ⟨(by decide : validBytes (ascii "per_page")), intToBytes_valid _⟩
  refine ⟨?_, ?_, ?_, ?_, ?_, ?_, intToBytes_injective⟩
  · intro h0
    have hfs : fieldString (FieldVal.str p.Size) = p.Size := rfl
    rw [← hfs]
    apply getAll_encode_roundtrip p.toFields hnd hfv (ascii "size") (.str p.Size) ?_
      (by decide) ((fieldKept_str _).mpr h0)
    unfold GetPhotosParams.toFields
    simp
  · intro h0
    have hfs : fieldString (FieldVal.str p.Color) = p.Color := rfl
    rw [← hfs]
    apply getAll_encode_roundtrip p.toFields hnd hfv (ascii "color") (.str p.Color) ?_
      (by decide) ((fieldKept_str _).mpr h0)
    unfold GetPhotosParams.toFields
    simp
  · intro h0
    have hfs : fieldString (FieldVal.str p.Orientation) = p.Orientation := rfl
    rw [← hfs]
    apply getAll_encode_roundtrip p.toFields hnd hfv (ascii "orientation") (.str p.Orientation)
      ?_ (by decide) ((fieldKept_str _).mpr h0)
    unfold GetPhotosParams.toFields
    simp
  · intro h0
    have hfs : fieldString (FieldVal.str p.Query) = p.Query := rfl
    rw [← hfs]
    apply getAll_encode_roundtrip p.toFields hnd hfv (ascii "query") (.str p.Query) ?_
      (by decide) ((fieldKept_str _).mpr h0)
    unfold GetPhotosParams.toFields
    simp
  · intro h0
    have hfs : fieldString (FieldVal.int p.Page) = intToBytes p.Page := rfl
    rw [← hfs]
    apply getAll_encode_roundtrip p.toFields hnd hfv (ascii "page") (.int p.Page) ?_
      (by decide) ((fieldKept_int _).mpr h0)
    unfold GetPhotosParams.toFields
    simp
  · intro h0
    have hfs : fieldString (FieldVal.int p.PerPage) = intToBytes p.PerPage := rfl
    rw [← hfs]
    apply getAll_encode_roundtrip p.toFields hnd hfv (ascii "per_page") (.int p.PerPage) ?_
      (by decide) ((fieldKept_int _).mpr h0)
    unfold GetPhotosParams.toFields
    simp

/-- Witness for the round-trip theorem at a concrete record containing a space in the
query (exercising the escaping) and a non-zero page. -/
theorem encode_parse_roundtrip_witness :
    getAll (parseQuery (encodeValues (structToURLValues
        (GetPhotosParams.mk (ascii "big dog") (ascii "landscape") (ascii "large") [] [] 2 0).toFields)))
      (ascii "query") = [ascii "big dog"] ∧
    getAll (parseQuery (encodeValues (structToURLValues
        (GetPhotosParams.mk (ascii "big dog") (ascii "landscape") (ascii "large") [] [] 2 0).toFields)))
      (ascii "page") = [intToBytes 2] := by
  have h := encode_parse_roundtrip
    ⟨ascii "big dog", ascii "landscape", ascii "large", [], [], 2, 0⟩
    (by decide) (by decide) (by decide) (by decide) (by decide)
  exact ⟨h.2.2.2.1 (by decide), h.2.2.2.2.1 (by decide)⟩

end Pexels
